import Mathlib

/-!
Verification development for two Zephyr drivers:
* the Microchip XEC PWM driver (`pwm_mchp_xec.c`), and
* the ITE IT8xxx2 I2C controller driver (`i2c_ite_it8xxx2.c`).

The C code is shallowly embedded: machine integers are modelled as `Nat`
with explicit reductions modulo `2^32` / `2^64` exactly where the C
arithmetic wraps, register writes are recorded in ghost logs, and
hardware status reads are supplied by explicit oracle inputs.
-/

namespace Spec2Proof

/-- `2^32`, the modulus of C `uint32_t` arithmetic. -/
def U32 : Nat := 4294967296

/-- `2^64`, the modulus of C `uint64_t` arithmetic. -/
def U64 : Nat := 18446744073709551616

/-- C `(int)` conversion of a 32-bit unsigned value (two's complement). -/
def toInt32 (n : Nat) : Int :=
  if n % U32 < 2147483648 then ((n % U32 : Nat) : Int) else ((n % U32 : Nat) : Int) - (U32 : Int)

/-! ### errno values

Modelled from the spec: the driver returns negated POSIX errno codes
(`-EINVAL`, `-EIO`, ...) whose numeric values come from Zephyr's libc
headers, not from the two source files themselves.  The exact numbers are
irrelevant to every claim below; only their distinctness matters. -/

def EINVAL : Nat := 22
def EIO : Nat := 5
def ENXIO : Nat := 6
def ENOTSUP : Nat := 134
def ERANGE : Nat := 34
def ETIMEDOUT : Nat := 116

/-! ## PWM driver (pwm_mchp_xec.c) -/

/-- `XEC_PWM_LOWEST_ON_OFF`: minimal combined on/off count in raw units. -/
def XEC_PWM_LOWEST_ON_OFF : Nat := 4

/-- `XEC_PWM_HIGHEST_ON_OFF = 2 * (UINT16_MAX + 1) * 16`. -/
def XEC_PWM_HIGHEST_ON_OFF : Nat := 2 * 65536 * 16

/-- Modelled from the spec: `MCHP_PWM_INPUT_FREQ_HI`, the fixed high-speed
reference clock (48 MHz) from the SoC header; it equals entry 0 of the
`max_freq_high_on_div` table in the source. -/
def MCHP_PWM_INPUT_FREQ_HI : Nat := 48000000

/-- Modelled from the spec: `MCHP_PWM_INPUT_FREQ_LO`, the low-speed clock
(100 kHz) from the SoC header; it equals entry 0 of `max_freq_low_on_div`. -/
def MCHP_PWM_INPUT_FREQ_LO : Nat := 100000

/-- `XEC_PWM_MIN_HIGH_CLK_FREQ = MCHP_PWM_INPUT_FREQ_HI / XEC_PWM_HIGHEST_ON_OFF`. -/
def XEC_PWM_MIN_HIGH_CLK_FREQ : Nat := MCHP_PWM_INPUT_FREQ_HI / XEC_PWM_HIGHEST_ON_OFF

/-- `XEC_PWM_MAX_LOW_CLK_FREQ = MCHP_PWM_INPUT_FREQ_LO / XEC_PWM_LOWEST_ON_OFF`. -/
def XEC_PWM_MAX_LOW_CLK_FREQ : Nat := MCHP_PWM_INPUT_FREQ_LO / XEC_PWM_LOWEST_ON_OFF

/-- `XEC_PWM_FREQ_PF`: fixed-point precision factor for frequencies (x10). -/
def XEC_PWM_FREQ_PF : Nat := 10

/-- `XEC_PWM_DC_PF`: fixed-point precision factor for duty cycles (x100000). -/
def XEC_PWM_DC_PF : Nat := 100000

/-- `XEC_PWM_FREQ_LIMIT`: lowest reachable frequency, 0.1 Hz in x10 units. -/
def XEC_PWM_FREQ_LIMIT : Nat := 1

/-- The `max_freq_high_on_div` table from the source (48 MHz clock divided by 1..16). -/
def max_freq_high_on_div : List Nat :=
  [48000000, 24000000, 16000000, 12000000, 9600000, 8000000, 6857142, 6000000,
   5333333, 4800000, 4363636, 4000000, 3692307, 3428571, 3200000, 3000000]

/-- The `max_freq_low_on_div` table from the source (100 kHz clock divided by 1..16). -/
def max_freq_low_on_div : List Nat :=
  [100000, 50000, 33333, 25000, 20000, 16666, 14285, 12500,
   11111, 10000, 9090, 8333, 7692, 7142, 6666, 6250]

/-- `xec_compute_frequency`: `(clk * XEC_PWM_FREQ_PF) / ((onv + 1) + (offv + 1))`
in `uint32_t` arithmetic (C division by zero cannot occur at the driver's
call sites; the Nat convention `x / 0 = 0` is used for totality). -/
def xec_compute_frequency (clk onv offv : Nat) : Nat :=
  (clk * XEC_PWM_FREQ_PF) % U32 / (((onv + 1) % U32 + (offv + 1) % U32) % U32)

/-- `xec_select_div`: pick the initial divider index for a target frequency.
Returns 0 when `freq >= max_freq[3]`, otherwise the first index `i < 15`
with `freq * XEC_PWM_LOWEST_ON_OFF >= max_freq[i]`, else 15. -/
def xec_select_div (freq : Nat) (maxFreq : List Nat) : Nat :=
  if freq ≥ maxFreq.getD 3 0 then 0
  else
    let freq4 := (freq * XEC_PWM_LOWEST_ON_OFF) % U32
    match (List.range 15).find? (fun i => freq4 ≥ maxFreq.getD i 0) with
    | some i => i
    | none => 15

/-- `xec_compute_on_off`: `on_off = clk*10/freq` (u32 product, u64 quotient);
`*onv = on_off*dc/XEC_PWM_DC_PF - 1` (u64 arithmetic truncated to u32);
`*offv = on_off - *onv - 2` (u64 arithmetic using the truncated `*onv`, truncated
to u32).  Returns `(onv, offv)`. -/
def xec_compute_on_off (freq dc clk : Nat) : Nat × Nat :=
  let onOff := (clk * 10) % U32 / freq
  let onv := ((onOff * dc) % U64 / XEC_PWM_DC_PF + (U64 - 1)) % U64 % U32
  let offv := (onOff + (U64 - onv) + (U64 - 2)) % U64 % U32
  (onv, offv)

/-- `xec_compute_dc`: `dc = (onv+1)+(offv+1)` as C `int` (u32 sum reinterpreted
as two's-complement), then `((uint64_t)(onv+1) * XEC_PWM_DC_PF) / dc`, where
the divisor is the `int` converted (sign-extended) to `uint64_t`; the `int`
result is returned as `uint32_t`. -/
def xec_compute_dc (onv offv : Nat) : Nat :=
  let s := ((onv + 1) % U32 + (offv + 1) % U32) % U32
  let divisor := if s < 2147483648 then s else s + (U64 - U32)
  ((onv + 1) % U32 * XEC_PWM_DC_PF / divisor) % U32

/-- `xec_compare_div_on_off`: recompute `(onv, offv)` for both adjacent divider
candidates, compare the `uint32_t` (wrapping) differences
`target_freq - freq`, and return `(div, onv, offv)` for the kept candidate.
In the source, `*on_a`/`*off_a` end up holding the returned candidate's
values in every branch. -/
def xec_compare_div_on_off (targetFreq dc : Nat) (maxFreq : List Nat)
    (divA divB : Nat) : Nat × Nat × Nat :=
  let onOffA := xec_compute_on_off targetFreq dc (maxFreq.getD divA 0)
  let freqA := xec_compute_frequency (maxFreq.getD divA 0) onOffA.1 onOffA.2
  let onOffB := xec_compute_on_off targetFreq dc (maxFreq.getD divB 0)
  let freqB := xec_compute_frequency (maxFreq.getD divB 0) onOffB.1 onOffB.2
  if (targetFreq + U32 - freqA) % U32 < (targetFreq + U32 - freqB) % U32 ∧
      onOffA.1 ≤ 65535 ∧ onOffA.2 ≤ 65535 then
    (divA, onOffA.1, onOffA.2)
  else if onOffB.1 ≤ 65535 ∧ onOffB.2 ≤ 65535 then
    (divB, onOffB.1, onOffB.2)
  else
    (divA, onOffA.1, onOffA.2)

/-- The downward divider walk of `xec_select_best_div_on_off`:
`for (div_comp = (int)div - 1; div_comp >= 0; div_comp--)`, comparing the
current best divider with `div_comp` at each step. -/
def xec_div_walk (targetFreq dc : Nat) (maxFreq : List Nat) :
    Nat → Nat × Nat × Nat → Nat × Nat × Nat
  | 0, s => s
  | k + 1, s => xec_div_walk targetFreq dc maxFreq k
      (xec_compare_div_on_off targetFreq dc maxFreq s.1 k)

/-- `xec_select_best_div_on_off`: initial divider from `xec_select_div`, then
the downward walk.  The `(0, 0)` pair stands for the C locals `*onv`/`*offv`
that remain unwritten when the walk is empty (initial divider 0). -/
def xec_select_best_div_on_off (targetFreq dc : Nat) (maxFreq : List Nat) :
    Nat × Nat × Nat :=
  let d0 := xec_select_div targetFreq maxFreq
  xec_div_walk targetFreq dc maxFreq d0 (d0, 0, 0)

/-- One PWM parameter candidate (`struct xec_params`). -/
structure XecParams where
  onv : Nat
  offv : Nat
  div : Nat
deriving DecidableEq, Repr

/-- `xec_compare_params`: achieved frequency of each domain's candidate
(0 when its divider is out of table range, i.e. the `UINT8_MAX` marker),
then pick the domain with the smaller `abs((int)target - (int)freq)`.
Returns `true` when the high-speed candidate wins. -/
def xec_compare_params (targetFreq : Nat) (hc lc : XecParams) : Bool :=
  let freqH := if hc.div < 16 then
    xec_compute_frequency (max_freq_high_on_div.getD hc.div 0) hc.onv hc.offv else 0
  let freqL := if lc.div < 16 then
    xec_compute_frequency (max_freq_low_on_div.getD lc.div 0) lc.onv lc.offv else 0
  (toInt32 targetFreq - toInt32 freqH).natAbs < (toInt32 targetFreq - toInt32 freqL).natAbs

/-- One recorded PWM register write. -/
inductive PwmWrite where
  | countOn (v : Nat)
  | countOff (v : Nat)
  | config (v : Nat)
deriving DecidableEq, Repr

/-- The PWM register block: current `CONFIG`/`COUNT_ON`/`COUNT_OFF` values
plus a ghost log of all writes (oldest first). -/
structure PwmRegs where
  config : Nat
  countOn : Nat
  countOff : Nat
  log : List PwmWrite
deriving DecidableEq, Repr

def pwmWConfig (v : Nat) (r : PwmRegs) : PwmRegs :=
  { r with config := v, log := r.log ++ [.config v] }

def pwmWCountOn (v : Nat) (r : PwmRegs) : PwmRegs :=
  { r with countOn := v, log := r.log ++ [.countOn v] }

def pwmWCountOff (v : Nat) (r : PwmRegs) : PwmRegs :=
  { r with countOff := v, log := r.log ++ [.countOff v] }

/-- `MCHP_PWM_CFG_ENABLE` (bit 0).  Modelled from the spec: the exact bit
positions of the `CONFIG` fields come from the SoC header; only "enable
cleared / set" is observed by the claims. -/
def MCHP_PWM_CFG_ENABLE : Nat := 1

/-- Modelled from the spec: `MCHP_PWM_CFG_CLK_SEL_48M` (the 48 MHz clock
select encoding, value 0 in the SoC header). -/
def MCHP_PWM_CFG_CLK_SEL_48M : Nat := 0

/-- Modelled from the spec: `MCHP_PWM_CFG_CLK_SEL_100K` (bit 1). -/
def MCHP_PWM_CFG_CLK_SEL_100K : Nat := 2

/-- Modelled from the spec: `MCHP_PWM_CFG_CLK_PRE_DIV(n)`, the divider field
`(n & 0xF) << 3` of `CONFIG`. -/
def MCHP_PWM_CFG_CLK_PRE_DIV (n : Nat) : Nat := (n &&& 0xF) <<< 3

/-- The candidate-construction phase of `xec_compute_and_set_parameters`:
the `goto done` 16-bit shortcut when only the high-speed range contains the
target, otherwise an independent search of each in-range clock domain.  An
out-of-range domain gets the `UINT8_MAX` divider marker (its on/off fields
stand for the C locals left unwritten, which are never read). -/
def xec_candidate_params (targetFreq dc onv offv : Nat) : XecParams × XecParams :=
  let computeHigh := targetFreq ≥ XEC_PWM_MIN_HIGH_CLK_FREQ
  let computeLow := targetFreq ≤ XEC_PWM_MAX_LOW_CLK_FREQ
  if computeHigh ∧ ¬computeLow ∧ onv ≤ 65535 ∧ offv ≤ 65535 then
    (⟨onv, offv, 0⟩, ⟨0, 0, 255⟩)
  else
    let hc : XecParams :=
      if computeHigh then
        let r := xec_select_best_div_on_off targetFreq dc max_freq_high_on_div
        ⟨r.2.1, r.2.2, r.1⟩
      else ⟨0, 0, 255⟩
    let lc : XecParams :=
      if computeLow then
        let r := xec_select_best_div_on_off targetFreq dc max_freq_low_on_div
        ⟨r.2.1, r.2.2, r.1⟩
      else ⟨0, 0, 255⟩
    (hc, lc)

/-- `xec_compute_and_set_parameters`: compute duty cycle, build the two
domain candidates, then disable the output, write the winning candidate's
on/off counters and divider/clock-select bits, and re-enable. -/
def xec_compute_and_set_parameters (targetFreq onv offv : Nat) (regs : PwmRegs) :
    PwmRegs :=
  let dc := xec_compute_dc onv offv
  let hcLc := xec_candidate_params targetFreq dc onv offv
  let regs := pwmWConfig (regs.config &&& (U32 - 1 - MCHP_PWM_CFG_ENABLE)) regs
  let reg := regs.config
  let isHigh := xec_compare_params targetFreq hcLc.1 hcLc.2
  let params := if isHigh then hcLc.1 else hcLc.2
  let reg := reg ||| (if isHigh then MCHP_PWM_CFG_CLK_SEL_48M else MCHP_PWM_CFG_CLK_SEL_100K)
  let regs := pwmWCountOn params.onv regs
  let regs := pwmWCountOff params.offv regs
  let reg := reg ||| MCHP_PWM_CFG_CLK_PRE_DIV params.div
  let reg := reg ||| MCHP_PWM_CFG_ENABLE
  pwmWConfig reg regs

/-- `pwm_xec_pin_set`: the public PWM set operation.  Returns the C result
(0 or a negated errno) together with the register block. -/
def pwm_xec_pin_set (pwm periodCycles pulseCycles flags : Nat) (regs : PwmRegs) :
    Int × PwmRegs :=
  if pwm > 0 then (-( EIO : Int), regs)
  else if pulseCycles > periodCycles then (-(EINVAL : Int), regs)
  else if flags ≠ 0 then (-(ENOTSUP : Int), regs)
  else
    let onv := pulseCycles
    let offv := periodCycles - pulseCycles
    let targetFreq := xec_compute_frequency MCHP_PWM_INPUT_FREQ_HI onv offv
    if targetFreq < XEC_PWM_FREQ_LIMIT then (-(EINVAL : Int), regs)
    else if pulseCycles = 0 ∧ periodCycles = 0 then
      (0, pwmWConfig (regs.config &&& (U32 - 1 - MCHP_PWM_CFG_ENABLE)) regs)
    else if pulseCycles = 0 ∧ periodCycles > 0 then
      (0, pwmWCountOff 1 (pwmWCountOn 0 regs))
    else if pulseCycles > 0 ∧ periodCycles = 0 then
      (0, pwmWCountOff 0 (pwmWCountOn 1 regs))
    else
      (0, xec_compute_and_set_parameters targetFreq onv offv regs)

/-! ### PWM search lemmas -/

set_option maxRecDepth 10000

/-- The `(on, off)` pair the search computes for divider `d` of a table. -/
def xec_candidate_vals (targetFreq dc : Nat) (maxFreq : List Nat) (d : Nat) : Nat × Nat :=
  xec_compute_on_off targetFreq dc (maxFreq.getD d 0)

/-- Whether divider `d`'s computed on/off counts both fit in 16 bits. -/
def xec_candidate_fits (targetFreq dc : Nat) (maxFreq : List Nat) (d : Nat) : Bool :=
  decide ((xec_candidate_vals targetFreq dc maxFreq d).1 ≤ 65535 ∧
    (xec_candidate_vals targetFreq dc maxFreq d).2 ≤ 65535)

/-- The frequency the forward formula assigns to divider `d`'s candidate. -/
def xec_candidate_freq (targetFreq dc : Nat) (maxFreq : List Nat) (d : Nat) : Nat :=
  xec_compute_frequency (maxFreq.getD d 0)
    (xec_candidate_vals targetFreq dc maxFreq d).1
    (xec_candidate_vals targetFreq dc maxFreq d).2

/-- `xec_compare_div_on_off` always hands back one of its two candidates,
together with exactly that candidate's computed on/off values. -/
theorem xec_compare_div_on_off_shape (t dc : Nat) (tbl : List Nat) (a b : Nat) :
    xec_compare_div_on_off t dc tbl a b = (a, xec_candidate_vals t dc tbl a) ∨
    xec_compare_div_on_off t dc tbl a b = (b, xec_candidate_vals t dc tbl b) := by
  simp only [xec_compare_div_on_off, xec_candidate_vals]
  split_ifs <;> simp

/-- The kept candidate fits in 16 bits exactly when one of the two compared
candidates does. -/
theorem xec_compare_div_on_off_fits (t dc : Nat) (tbl : List Nat) (a b : Nat) :
    xec_candidate_fits t dc tbl (xec_compare_div_on_off t dc tbl a b).1 =
      (xec_candidate_fits t dc tbl a || xec_candidate_fits t dc tbl b) := by
  simp only [xec_compare_div_on_off]
  split_ifs with h1 h2
  · have ha : xec_candidate_fits t dc tbl a = true := by
      simp only [xec_candidate_fits, xec_candidate_vals, decide_eq_true_eq]
      exact ⟨h1.2.1, h1.2.2⟩
    simp [ha]
  · have hb : xec_candidate_fits t dc tbl b = true := by
      simp only [xec_candidate_fits, xec_candidate_vals, decide_eq_true_eq]
      exact ⟨h2.1, h2.2⟩
    simp [hb]
  · have hb : xec_candidate_fits t dc tbl b = false := by
      simp only [xec_candidate_fits, xec_candidate_vals, decide_eq_false_iff_not]
      exact h2
    simp [hb]

/-- Along the walk, the accumulated on/off values are always the computed
values of the accumulated divider. -/
theorem xec_div_walk_val (t dc : Nat) (tbl : List Nat) :
    ∀ (k : Nat) (s : Nat × Nat × Nat),
      (xec_div_walk t dc tbl (k + 1) s).2 =
        xec_candidate_vals t dc tbl (xec_div_walk t dc tbl (k + 1) s).1 := by
  intro k
  induction k with
  | zero =>
    intro s
    rcases xec_compare_div_on_off_shape t dc tbl s.1 0 with h | h <;>
      simp [xec_div_walk, h]
  | succ k ih =>
    intro s
    simpa [xec_div_walk] using ih (xec_compare_div_on_off t dc tbl s.1 (k + 1))

/-- The walk's final divider fits iff the incoming divider or one of the
walked-over dividers fits. -/
theorem xec_div_walk_fits (t dc : Nat) (tbl : List Nat) :
    ∀ (k : Nat) (s : Nat × Nat × Nat),
      xec_candidate_fits t dc tbl (xec_div_walk t dc tbl (k + 1) s).1 =
        (xec_candidate_fits t dc tbl s.1 ||
          (List.range (k + 1)).any (xec_candidate_fits t dc tbl)) := by
  intro k
  induction k with
  | zero =>
    intro s
    simp [xec_div_walk, xec_compare_div_on_off_fits, List.range_succ]
  | succ k ih =>
    intro s
    have step : xec_div_walk t dc tbl (k + 2) s =
        xec_div_walk t dc tbl (k + 1) (xec_compare_div_on_off t dc tbl s.1 (k + 1)) := rfl
    rw [step, ih, xec_compare_div_on_off_fits]
    conv_rhs => rw [List.range_succ]
    rw [List.any_append]
    cases hA : xec_candidate_fits t dc tbl s.1 <;>
      cases hB : xec_candidate_fits t dc tbl (k + 1) <;> simp [hA, hB]

/-- If the initial divider is at least 1 (so the walk runs) and some divider
up to the initial one fits, the values returned by
`xec_select_best_div_on_off` fit in 16 bits. -/
theorem xec_select_best_div_on_off_fits (t dc : Nat) (tbl : List Nat)
    (h1 : 1 ≤ xec_select_div t tbl)
    (h2 : (List.range (xec_select_div t tbl + 1)).any
      (xec_candidate_fits t dc tbl) = true) :
    (xec_select_best_div_on_off t dc tbl).2.1 ≤ 65535 ∧
    (xec_select_best_div_on_off t dc tbl).2.2 ≤ 65535 := by
  obtain ⟨m, hm⟩ : ∃ m, xec_select_div t tbl = m + 1 :=
    ⟨xec_select_div t tbl - 1, by omega⟩
  have hv := xec_div_walk_val t dc tbl m (m + 1, 0, 0)
  have hf := xec_div_walk_fits t dc tbl m (m + 1, 0, 0)
  rw [hm] at h2
  rw [List.range_succ, List.any_append] at h2
  have hfit : xec_candidate_fits t dc tbl
      (xec_div_walk t dc tbl (m + 1) (m + 1, 0, 0)).1 = true := by
    rw [hf]
    simp only [List.any_cons, List.any_nil, Bool.or_false] at h2
    rcases Bool.or_eq_true_iff.mp h2 with h | h
    · simp [h]
    · simp [h]
  unfold xec_select_best_div_on_off
  rw [hm]
  rw [xec_candidate_fits, decide_eq_true_eq] at hfit
  rw [hv]
  exact hfit

/-- The high-domain candidate produced by `xec_candidate_params` fits in
16 bits, given that whenever the high-domain search actually runs its walk
is nonempty and examines some fitting divider. -/
theorem xec_candidate_params_high_le (t dc onv offv : Nat)
    (hH : t >= XEC_PWM_MIN_HIGH_CLK_FREQ ->
      Not (t >= XEC_PWM_MIN_HIGH_CLK_FREQ /\ Not (t <= XEC_PWM_MAX_LOW_CLK_FREQ) /\
          onv <= 65535 /\ offv <= 65535) ->
      1 <= xec_select_div t max_freq_high_on_div /\
      (List.range (xec_select_div t max_freq_high_on_div + 1)).any
        (xec_candidate_fits t dc max_freq_high_on_div) = true) :
    (xec_candidate_params t dc onv offv).1.onv <= 65535 /\
    (xec_candidate_params t dc onv offv).1.offv <= 65535 := by
  by_cases hsc : t >= XEC_PWM_MIN_HIGH_CLK_FREQ /\ Not (t <= XEC_PWM_MAX_LOW_CLK_FREQ) /\
      onv <= 65535 /\ offv <= 65535
  . simp only [xec_candidate_params, if_pos hsc]
    exact ⟨hsc.2.2.1, hsc.2.2.2⟩
  . simp only [xec_candidate_params, if_neg hsc]
    by_cases hch : t >= XEC_PWM_MIN_HIGH_CLK_FREQ
    . simp only [if_pos hch]
      exact xec_select_best_div_on_off_fits t dc max_freq_high_on_div
        (hH hch hsc).1 (hH hch hsc).2
    . simp only [if_neg hch]
      exact ⟨by norm_num, by norm_num⟩

/-- The low-domain candidate produced by `xec_candidate_params` fits in
16 bits, given that whenever the low-domain search runs its walk is nonempty
and examines some fitting divider. -/
theorem xec_candidate_params_low_le (t dc onv offv : Nat)
    (hL : t <= XEC_PWM_MAX_LOW_CLK_FREQ ->
      1 <= xec_select_div t max_freq_low_on_div /\
      (List.range (xec_select_div t max_freq_low_on_div + 1)).any
        (xec_candidate_fits t dc max_freq_low_on_div) = true) :
    (xec_candidate_params t dc onv offv).2.onv <= 65535 /\
    (xec_candidate_params t dc onv offv).2.offv <= 65535 := by
  by_cases hsc : t >= XEC_PWM_MIN_HIGH_CLK_FREQ /\ Not (t <= XEC_PWM_MAX_LOW_CLK_FREQ) /\
      onv <= 65535 /\ offv <= 65535
  . simp only [xec_candidate_params, if_pos hsc]
    exact ⟨by norm_num, by norm_num⟩
  . simp only [xec_candidate_params, if_neg hsc]
    by_cases hcl : t <= XEC_PWM_MAX_LOW_CLK_FREQ
    . simp only [if_pos hcl]
      exact xec_select_best_div_on_off_fits t dc max_freq_low_on_div
        (hL hcl).1 (hL hcl).2
    . simp only [if_neg hcl]
      exact ⟨by norm_num, by norm_num⟩

/-- The write phase of `xec_compute_and_set_parameters`: it always writes the
disable, the chosen candidate's counters, and the final config, where the
chosen candidate is one of the two produced by `xec_candidate_params`. -/
theorem xec_compute_and_set_parameters_shape (t onv offv : Nat) (regs : PwmRegs) :
    ∃ p : XecParams,
      (p = (xec_candidate_params t (xec_compute_dc onv offv) onv offv).1 ∨
       p = (xec_candidate_params t (xec_compute_dc onv offv) onv offv).2) ∧
      ∃ c2 : Nat,
      xec_compute_and_set_parameters t onv offv regs =
        { config := c2, countOn := p.onv, countOff := p.offv,
          log := regs.log ++
            [PwmWrite.config (regs.config &&& (U32 - 1 - MCHP_PWM_CFG_ENABLE)),
             PwmWrite.countOn p.onv, PwmWrite.countOff p.offv,
             PwmWrite.config c2] } := by
  cases hcmp : xec_compare_params t
      (xec_candidate_params t (xec_compute_dc onv offv) onv offv).1
      (xec_candidate_params t (xec_compute_dc onv offv) onv offv).2 with
  | false =>
    refine ⟨(xec_candidate_params t (xec_compute_dc onv offv) onv offv).2,
      Or.inr rfl,
      regs.config &&& (U32 - 1 - MCHP_PWM_CFG_ENABLE) ||| MCHP_PWM_CFG_CLK_SEL_100K |||
        MCHP_PWM_CFG_CLK_PRE_DIV
          (xec_candidate_params t (xec_compute_dc onv offv) onv offv).2.div |||
        MCHP_PWM_CFG_ENABLE, ?_⟩
    simp [xec_compute_and_set_parameters, pwmWConfig, pwmWCountOn, pwmWCountOff,
      hcmp, List.append_assoc]
  | true =>
    refine ⟨(xec_candidate_params t (xec_compute_dc onv offv) onv offv).1,
      Or.inl rfl,
      regs.config &&& (U32 - 1 - MCHP_PWM_CFG_ENABLE) ||| MCHP_PWM_CFG_CLK_SEL_48M |||
        MCHP_PWM_CFG_CLK_PRE_DIV
          (xec_candidate_params t (xec_compute_dc onv offv) onv offv).1.div |||
        MCHP_PWM_CFG_ENABLE, ?_⟩
    simp [xec_compute_and_set_parameters, pwmWConfig, pwmWCountOn, pwmWCountOff,
      hcmp, List.append_assoc]

/-- C4 (amended): every value the PWM parameter applier writes to the
`COUNT_ON`/`COUNT_OFF` registers is at most 65535, provided each clock-domain
search that runs walks at least one step and examines some divider whose
computed on/off pair fits in 16 bits.  When no examined divider of the
selected domain fits, the walk's final fallback keeps the initial divider's
out-of-range values and writes them unchanged, so the unconditional claim
fails on the code. -/
theorem claim_C4_theorem (t onv offv : Nat) (regs : PwmRegs)
    (hH : t ≥ XEC_PWM_MIN_HIGH_CLK_FREQ →
      ¬(t ≥ XEC_PWM_MIN_HIGH_CLK_FREQ ∧ ¬t ≤ XEC_PWM_MAX_LOW_CLK_FREQ ∧
          onv ≤ 65535 ∧ offv ≤ 65535) →
      1 ≤ xec_select_div t max_freq_high_on_div ∧
      (List.range (xec_select_div t max_freq_high_on_div + 1)).any
        (xec_candidate_fits t (xec_compute_dc onv offv) max_freq_high_on_div) = true)
    (hL : t ≤ XEC_PWM_MAX_LOW_CLK_FREQ →
      1 ≤ xec_select_div t max_freq_low_on_div ∧
      (List.range (xec_select_div t max_freq_low_on_div + 1)).any
        (xec_candidate_fits t (xec_compute_dc onv offv) max_freq_low_on_div) = true) :
    (xec_compute_and_set_parameters t onv offv regs).countOn ≤ 65535 ∧
    (xec_compute_and_set_parameters t onv offv regs).countOff ≤ 65535 ∧
    (∀ v, PwmWrite.countOn v ∈ (xec_compute_and_set_parameters t onv offv regs).log →
      PwmWrite.countOn v ∈ regs.log ∨ v ≤ 65535) ∧
    (∀ v, PwmWrite.countOff v ∈ (xec_compute_and_set_parameters t onv offv regs).log →
      PwmWrite.countOff v ∈ regs.log ∨ v ≤ 65535) := by
  obtain ⟨p, hp, c2, heq⟩ := xec_compute_and_set_parameters_shape t onv offv regs
  have hbound : p.onv ≤ 65535 ∧ p.offv ≤ 65535 := by
    rcases hp with rfl | rfl
    · exact xec_candidate_params_high_le t (xec_compute_dc onv offv) onv offv hH
    · exact xec_candidate_params_low_le t (xec_compute_dc onv offv) onv offv hL
  rw [heq]
  refine ⟨hbound.1, hbound.2, ?_, ?_⟩
  · intro v hv
    simp only [List.mem_append, List.mem_cons, List.not_mem_nil, or_false] at hv
    rcases hv with hv | hv | hv | hv | hv
    · exact Or.inl hv
    · exact absurd hv (by simp)
    · exact Or.inr (by cases hv; exact hbound.1)
    · exact absurd hv (by simp)
    · exact absurd hv (by simp)
  · intro v hv
    simp only [List.mem_append, List.mem_cons, List.not_mem_nil, or_false] at hv
    rcases hv with hv | hv | hv | hv | hv
    · exact Or.inl hv
    · exact absurd hv (by simp)
    · exact absurd hv (by simp)
    · exact Or.inr (by cases hv; exact hbound.2)
    · exact absurd hv (by simp)

/-- C4 counterexample: through the public interface,
`pwm.set(channel 0, period 20000000, pulse 1)` has a duty cycle that rounds
to zero, so every divider candidate's on-count wraps to `4294967295`; no
candidate fits, the fallback keeps the initial divider's values, and
`4294967295 > 65535` is written to `COUNT_ON`.  This refutes the claim that
a candidate exceeding the 16-bit range is never written to the registers. -/
theorem claim_C4_counterexample :
    (pwm_xec_pin_set 0 20000000 1 0 ⟨0, 0, 0, []⟩).1 = 0 ∧
    PwmWrite.countOn 4294967295 ∈ (pwm_xec_pin_set 0 20000000 1 0 ⟨0, 0, 0, []⟩).2.log ∧
    (pwm_xec_pin_set 0 20000000 1 0 ⟨0, 0, 0, []⟩).2.countOn = 4294967295 ∧
    ¬4294967295 ≤ 65535 := by decide

/-- Witness for the C4 theorem: a concrete request (period 53331, pulse 26665,
target 900.0 Hz) where both domain searches run and examine fitting dividers,
so the written counters stay within 16 bits. -/
theorem claim_C4_witness :
    (xec_compute_and_set_parameters 9000 26665 26666 ⟨0, 0, 0, []⟩).countOn ≤ 65535 ∧
    (xec_compute_and_set_parameters 9000 26665 26666 ⟨0, 0, 0, []⟩).countOff ≤ 65535 := by
  have h := claim_C4_theorem 9000 26665 26666 ⟨0, 0, 0, []⟩
    (fun _ _ => by decide) (fun _ => by decide)
  exact ⟨h.1, h.2.1⟩

/-- If no wrap-around occurs (`f ≤ t < 2^32`), the `uint32_t` difference
`t - f` equals the natural-number difference. -/
theorem wrap_sub_eq {t f : Nat} (hf : f ≤ t) (ht : t < U32) :
    (t + U32 - f) % U32 = t - f := by
  have h1 : t + U32 - f = U32 + (t - f) := by omega
  rw [h1, Nat.add_mod_left, Nat.mod_eq_of_lt (by omega)]

/-- C5 (amended): `xec_compare_div_on_off` always returns one of the two
candidates with exactly its computed on/off values; it keeps the first
candidate when the first's *wrapping unsigned* difference `target - freq`
is strictly smaller and the first fits in 16 bits, otherwise the second if
it fits, otherwise it falls back to the first candidate's values.  Only
when neither achieved frequency exceeds the target does this coincide with
choosing the smaller absolute frequency error (last conjunct); when an
achieved frequency exceeds the target the unsigned subtraction wraps and
the comparison is inverted, so the original claim fails. -/
theorem claim_C5_theorem (t dc : Nat) (tbl : List Nat) (a b : Nat) :
    (xec_compare_div_on_off t dc tbl a b = (a, xec_candidate_vals t dc tbl a) ∨
     xec_compare_div_on_off t dc tbl a b = (b, xec_candidate_vals t dc tbl b)) ∧
    (xec_candidate_fits t dc tbl a = true →
      (t + U32 - xec_candidate_freq t dc tbl a) % U32 <
        (t + U32 - xec_candidate_freq t dc tbl b) % U32 →
      xec_compare_div_on_off t dc tbl a b = (a, xec_candidate_vals t dc tbl a)) ∧
    (¬((t + U32 - xec_candidate_freq t dc tbl a) % U32 <
          (t + U32 - xec_candidate_freq t dc tbl b) % U32 ∧
        xec_candidate_fits t dc tbl a = true) →
      xec_candidate_fits t dc tbl b = true →
      xec_compare_div_on_off t dc tbl a b = (b, xec_candidate_vals t dc tbl b)) ∧
    (xec_candidate_fits t dc tbl a = false → xec_candidate_fits t dc tbl b = false →
      xec_compare_div_on_off t dc tbl a b = (a, xec_candidate_vals t dc tbl a)) ∧
    (xec_candidate_freq t dc tbl a ≤ t → xec_candidate_freq t dc tbl b ≤ t →
      t < U32 →
      xec_candidate_fits t dc tbl a = true → xec_candidate_fits t dc tbl b = true →
      (xec_compare_div_on_off t dc tbl a b = (a, xec_candidate_vals t dc tbl a) ∧
        t - xec_candidate_freq t dc tbl a ≤ t - xec_candidate_freq t dc tbl b) ∨
      (xec_compare_div_on_off t dc tbl a b = (b, xec_candidate_vals t dc tbl b) ∧
        t - xec_candidate_freq t dc tbl b ≤ t - xec_candidate_freq t dc tbl a)) := by
  have hca : xec_candidate_fits t dc tbl a = true →
      (t + U32 - xec_candidate_freq t dc tbl a) % U32 <
        (t + U32 - xec_candidate_freq t dc tbl b) % U32 →
      xec_compare_div_on_off t dc tbl a b = (a, xec_candidate_vals t dc tbl a) := by
    intro hfa hlt
    have hfa' := (decide_eq_true_eq).mp hfa
    simp only [xec_candidate_vals] at hfa'
    simp only [xec_candidate_freq, xec_candidate_vals] at hlt
    simp only [xec_compare_div_on_off, xec_candidate_vals]
    rw [if_pos ⟨hlt, hfa'.1, hfa'.2⟩]
  have hcb : ¬((t + U32 - xec_candidate_freq t dc tbl a) % U32 <
        (t + U32 - xec_candidate_freq t dc tbl b) % U32 ∧
        xec_candidate_fits t dc tbl a = true) →
      xec_candidate_fits t dc tbl b = true →
      xec_compare_div_on_off t dc tbl a b = (b, xec_candidate_vals t dc tbl b) := by
    intro hna hfb
    have hfb' := (decide_eq_true_eq).mp hfb
    simp only [xec_candidate_vals] at hfb'
    simp only [xec_compare_div_on_off, xec_candidate_vals]
    rw [if_neg, if_pos ⟨hfb'.1, hfb'.2⟩]
    intro hc
    apply hna
    simp only [xec_candidate_freq, xec_candidate_vals]
    exact ⟨hc.1, decide_eq_true_eq.mpr ⟨hc.2.1, hc.2.2⟩⟩
  have hcfb : xec_candidate_fits t dc tbl a = false →
      xec_candidate_fits t dc tbl b = false →
      xec_compare_div_on_off t dc tbl a b = (a, xec_candidate_vals t dc tbl a) := by
    intro hfa hfb
    have hfa' := (decide_eq_false_iff_not).mp hfa
    have hfb' := (decide_eq_false_iff_not).mp hfb
    simp only [xec_candidate_vals] at hfa' hfb'
    simp only [xec_compare_div_on_off, xec_candidate_vals]
    rw [if_neg, if_neg hfb']
    intro hc
    exact hfa' ⟨hc.2.1, hc.2.2⟩
  refine ⟨xec_compare_div_on_off_shape t dc tbl a b, hca, hcb, hcfb, ?_⟩
  intro hta htb htu hfa hfb
  rw [← wrap_sub_eq hta htu, ← wrap_sub_eq htb htu]
  by_cases hlt : (t + U32 - xec_candidate_freq t dc tbl a) % U32 <
      (t + U32 - xec_candidate_freq t dc tbl b) % U32
  · exact Or.inl ⟨hca hfa hlt, le_of_lt hlt⟩
  · exact Or.inr ⟨hcb (fun hc => hlt hc.1) hfb, Nat.le_of_not_lt hlt⟩

/-- C5 counterexample: during the walk started by
`pwm.set(period 53331, pulse 26665)` (target 900.0 Hz, duty 49999/100000),
the very first comparison is divider 2 versus divider 1 of the low-speed
table.  Divider 2's candidate fits and achieves 900.8 Hz (absolute error 8
fixed-point units) while divider 1 achieves 909.0 Hz (error 90), yet the
step returns divider 1: both achieved frequencies exceed the target, so the
unsigned differences wrap and the comparison picks the larger error. -/
theorem claim_C5_counterexample :
    xec_select_div 9000 max_freq_low_on_div = 2 ∧
    xec_compare_div_on_off 9000 49999 max_freq_low_on_div 2 1 =
      (1, xec_candidate_vals 9000 49999 max_freq_low_on_div 1) ∧
    xec_candidate_fits 9000 49999 max_freq_low_on_div 2 = true ∧
    xec_candidate_freq 9000 49999 max_freq_low_on_div 2 = 9008 ∧
    xec_candidate_freq 9000 49999 max_freq_low_on_div 1 = 9090 ∧
    (9008 - 9000 : Int).natAbs < (9090 - 9000 : Int).natAbs := by decide

/-- Witness for the C5 theorem: at target 10000.0 Hz with 50% duty both
low-table candidates 0 and 1 fit and sit at or below the target, so the
comparison step provably returns a minimal-absolute-error candidate. -/
theorem claim_C5_witness :
    (xec_compare_div_on_off 100000 50000 max_freq_low_on_div 0 1 =
        (0, xec_candidate_vals 100000 50000 max_freq_low_on_div 0) ∧
      100000 - xec_candidate_freq 100000 50000 max_freq_low_on_div 0 ≤
        100000 - xec_candidate_freq 100000 50000 max_freq_low_on_div 1) ∨
    (xec_compare_div_on_off 100000 50000 max_freq_low_on_div 0 1 =
        (1, xec_candidate_vals 100000 50000 max_freq_low_on_div 1) ∧
      100000 - xec_candidate_freq 100000 50000 max_freq_low_on_div 1 ≤
        100000 - xec_candidate_freq 100000 50000 max_freq_low_on_div 0) :=
  (claim_C5_theorem 100000 50000 max_freq_low_on_div 0 1).2.2.2.2
    (by decide) (by decide) (by decide) (by decide) (by decide)

/-- The target frequency `pwm_xec_pin_set` derives from a zero pulse and a
period below the fixed-point floor bound is `480000000 / (P + 2)`. -/
theorem xec_compute_frequency_period (P : Nat) (hP : P ≤ 479999998) :
    xec_compute_frequency MCHP_PWM_INPUT_FREQ_HI 0 (P - 0) = 480000000 / (P + 2) := by
  simp only [xec_compute_frequency, MCHP_PWM_INPUT_FREQ_HI, XEC_PWM_FREQ_PF, U32]
  have e1 : (48000000 * 10) % 4294967296 = 480000000 := by norm_num
  have e2 : ((0 + 1) % 4294967296 + (P - 0 + 1) % 4294967296) % 4294967296 = P + 2 := by
    omega
  rw [e1, e2]

/-- Same derivation for a full-duty request (`pulse = period = P`). -/
theorem xec_compute_frequency_full (P : Nat) (hP : P ≤ 479999998) :
    xec_compute_frequency MCHP_PWM_INPUT_FREQ_HI P 0 = 480000000 / (P + 2) := by
  simp only [xec_compute_frequency, MCHP_PWM_INPUT_FREQ_HI, XEC_PWM_FREQ_PF, U32]
  have e1 : (48000000 * 10) % 4294967296 = 480000000 := by norm_num
  have e2 : ((P + 1) % 4294967296 + (0 + 1) % 4294967296) % 4294967296 = P + 2 := by
    omega
  rw [e1, e2]

/-- C6 (amended): `pwm.set(period=0, pulse=0)` disables the output (one
`CONFIG` write with the enable bit cleared); `pwm.set(period=P>0, pulse=0)`
writes on=0 and off=1 provided the derived target stays at or above the
0.1 Hz floor (`P ≤ 479999998`; beyond that the call is rejected instead);
and `pwm.set(period=P>0, pulse=P)` does not use the permanent-high shortcut
(that branch requires `period = 0 < pulse`, which is already rejected as
invalid) but falls through to the general divider search. -/
theorem claim_C6_theorem :
    (∀ regs : PwmRegs,
      pwm_xec_pin_set 0 0 0 0 regs =
        (0, pwmWConfig (regs.config &&& (U32 - 1 - MCHP_PWM_CFG_ENABLE)) regs)) ∧
    (∀ P : Nat, ∀ regs : PwmRegs, 0 < P → P ≤ 479999998 →
      pwm_xec_pin_set 0 P 0 0 regs = (0, pwmWCountOff 1 (pwmWCountOn 0 regs))) ∧
    (∀ P : Nat, ∀ regs : PwmRegs, 0 < P → P ≤ 479999998 →
      pwm_xec_pin_set 0 P P 0 regs =
        (0, xec_compute_and_set_parameters
          (xec_compute_frequency MCHP_PWM_INPUT_FREQ_HI P 0) P 0 regs)) := by
  refine ⟨?_, ?_, ?_⟩
  · intro regs
    simp [pwm_xec_pin_set, xec_compute_frequency, MCHP_PWM_INPUT_FREQ_HI,
      XEC_PWM_FREQ_PF, XEC_PWM_FREQ_LIMIT, U32]
  · intro P regs hP0 hPle
    have hfreq := xec_compute_frequency_period P hPle
    have hge : ¬ xec_compute_frequency MCHP_PWM_INPUT_FREQ_HI 0 (P - 0) <
        XEC_PWM_FREQ_LIMIT := by
      rw [hfreq]
      simp only [XEC_PWM_FREQ_LIMIT, Nat.lt_one_iff]
      have : 1 ≤ 480000000 / (P + 2) :=
        (Nat.one_le_div_iff (by omega)).mpr (by omega)
      omega
    simp only [pwm_xec_pin_set]
    rw [if_neg (by omega : ¬(0:Nat) > 0), if_neg (by omega : ¬(0:Nat) > P),
      if_neg (by simp : ¬(0:Nat) ≠ 0), if_neg hge]
    simp only [true_and, eq_self_iff_true]
    rw [if_neg (by omega : ¬P = 0), if_pos hP0]
  · intro P regs hP0 hPle
    have hfreq := xec_compute_frequency_full P hPle
    have hge : ¬ xec_compute_frequency MCHP_PWM_INPUT_FREQ_HI P (P - P) <
        XEC_PWM_FREQ_LIMIT := by
      rw [Nat.sub_self, hfreq]
      simp only [XEC_PWM_FREQ_LIMIT, Nat.lt_one_iff]
      have : 1 ≤ 480000000 / (P + 2) :=
        (Nat.one_le_div_iff (by omega)).mpr (by omega)
      omega
    simp only [pwm_xec_pin_set]
    rw [if_neg (by omega : ¬(0:Nat) > 0), if_neg (by omega : ¬P > P),
      if_neg (by simp : ¬(0:Nat) ≠ 0), if_neg hge,
      if_neg (by omega : ¬(P = 0 ∧ P = 0)),
      if_neg (by omega : ¬(P = 0 ∧ P > 0)),
      if_neg (by omega : ¬(P > 0 ∧ P = 0)), Nat.sub_self]

/-- C6 counterexample: `pwm.set(period=2, pulse=2)` goes through the general
computation path and writes on=2/off=0 (via the high-domain 16-bit
shortcut), not the claimed on=1/off=0; and `pwm.set(period=479999999,
pulse=0)` is rejected with `-EINVAL` (target below the 0.1 Hz floor) rather
than writing on=0/off=1. -/
theorem claim_C6_counterexample :
    (pwm_xec_pin_set 0 2 2 0 ⟨0, 0, 0, []⟩).1 = 0 ∧
    (pwm_xec_pin_set 0 2 2 0 ⟨0, 0, 0, []⟩).2.countOn = 2 ∧
    (pwm_xec_pin_set 0 2 2 0 ⟨0, 0, 0, []⟩).2.countOff = 0 ∧
    PwmWrite.countOn 1 ∉ (pwm_xec_pin_set 0 2 2 0 ⟨0, 0, 0, []⟩).2.log ∧
    pwm_xec_pin_set 0 479999999 0 0 ⟨0, 0, 0, []⟩ =
      (-(EINVAL : Int), ⟨0, 0, 0, []⟩) := by decide

/-- Witness for the C6 theorem: the permanent-low case at period 5. -/
theorem claim_C6_witness :
    pwm_xec_pin_set 0 5 0 0 ⟨0, 0, 0, []⟩ =
      (0, pwmWCountOff 1 (pwmWCountOn 0 ⟨0, 0, 0, []⟩)) :=
  claim_C6_theorem.2.1 5 ⟨0, 0, 0, []⟩ (by decide) (by decide)

/-- C7 (amended): a channel index greater than 0 is rejected with the
generic I/O errno `-EIO` (before anything else is examined), and a request
whose derived fixed-point target frequency falls below the 0.1 Hz floor is
rejected with the invalid-argument errno `-EINVAL`; neither failure touches
the hardware registers.  (The spec's taxonomy would call these
`InvalidArgument` and `OutOfRange` respectively; the code returns the other
class in both cases.) -/
theorem claim_C7_theorem :
    (∀ pwm periodCycles pulseCycles flags : Nat, ∀ regs : PwmRegs, 0 < pwm →
      pwm_xec_pin_set pwm periodCycles pulseCycles flags regs =
        (-( EIO : Int), regs)) ∧
    (∀ periodCycles pulseCycles : Nat, ∀ regs : PwmRegs,
      pulseCycles ≤ periodCycles →
      xec_compute_frequency MCHP_PWM_INPUT_FREQ_HI pulseCycles
        (periodCycles - pulseCycles) < XEC_PWM_FREQ_LIMIT →
      pwm_xec_pin_set 0 periodCycles pulseCycles 0 regs =
        (-(EINVAL : Int), regs)) := by
  constructor
  · intro pwm periodCycles pulseCycles flags regs h
    simp only [pwm_xec_pin_set]
    rw [if_pos h]
  · intro periodCycles pulseCycles regs hle hfloor
    simp only [pwm_xec_pin_set]
    rw [if_neg (by omega : ¬(0:Nat) > 0),
      if_neg (by omega : ¬pulseCycles > periodCycles),
      if_neg (by simp : ¬(0:Nat) ≠ 0), if_pos hfloor]

/-- C7 counterexample: `pwm.set` on channel 1 returns `-EIO`, not the
invalid-argument errno the claim's `InvalidArgument` class denotes, and a
below-floor request returns `-EINVAL`, not a distinct out-of-range errno. -/
theorem claim_C7_counterexample :
    pwm_xec_pin_set 1 10 5 0 ⟨0, 0, 0, []⟩ = (-( EIO : Int), ⟨0, 0, 0, []⟩) ∧
    -( EIO : Int) ≠ -(EINVAL : Int) ∧
    pwm_xec_pin_set 0 479999999 0 0 ⟨0, 0, 0, []⟩ =
      (-(EINVAL : Int), ⟨0, 0, 0, []⟩) ∧
    -(EINVAL : Int) ≠ -(ERANGE : Int) := by decide

/-- Witness for the C7 theorem at concrete inputs: channel 1 and a
below-floor request on channel 0. -/
theorem claim_C7_witness :
    pwm_xec_pin_set 1 10 5 0 ⟨0, 0, 0, []⟩ = (-( EIO : Int), ⟨0, 0, 0, []⟩) ∧
    pwm_xec_pin_set 0 479999999 0 0 ⟨0, 0, 0, []⟩ =
      (-(EINVAL : Int), ⟨0, 0, 0, []⟩) :=
  ⟨claim_C7_theorem.1 1 10 5 0 ⟨0, 0, 0, []⟩ (by decide),
   claim_C7_theorem.2 479999999 0 ⟨0, 0, 0, []⟩ (by decide) (by decide)⟩

/-- C9 (amended): on channel 0, any request with `pulse_cycles >
period_cycles` is rejected with `-EINVAL` before any register write
(the returned register block is unchanged), and in particular the
documented permanent-high combination `pulse > 0 = period` never reaches
the register-writing branches.  On a channel index greater than 0 the
channel check fires first and the call returns `-EIO` instead. -/
theorem claim_C9_theorem :
    (∀ periodCycles pulseCycles flags : Nat, ∀ regs : PwmRegs,
      periodCycles < pulseCycles →
      pwm_xec_pin_set 0 periodCycles pulseCycles flags regs =
        (-(EINVAL : Int), regs)) ∧
    (∀ pulseCycles flags : Nat, ∀ regs : PwmRegs, 0 < pulseCycles →
      pwm_xec_pin_set 0 0 pulseCycles flags regs = (-(EINVAL : Int), regs)) := by
  have h1 : ∀ periodCycles pulseCycles flags : Nat, ∀ regs : PwmRegs,
      periodCycles < pulseCycles →
      pwm_xec_pin_set 0 periodCycles pulseCycles flags regs =
        (-(EINVAL : Int), regs) := by
    intro periodCycles pulseCycles flags regs h
    simp only [pwm_xec_pin_set]
    rw [if_neg (by omega : ¬(0:Nat) > 0), if_pos h]
  exact ⟨h1, fun pulseCycles flags regs h => h1 0 pulseCycles flags regs h⟩

/-- C9 counterexample: with channel index 1 and `pulse > period` the call
returns `-EIO` (the channel check fires first), not `-EINVAL`, so the
unconditional claim over every call is false. -/
theorem claim_C9_counterexample :
    pwm_xec_pin_set 1 0 5 0 ⟨0, 0, 0, []⟩ = (-( EIO : Int), ⟨0, 0, 0, []⟩) ∧
    -( EIO : Int) ≠ -(EINVAL : Int) := by decide

/-- Witness for the C9 theorem: `pulse 7 > period 3` on channel 0, with a
nonzero flags argument (the pulse/period check precedes the flags check). -/
theorem claim_C9_witness :
    pwm_xec_pin_set 0 3 7 9 ⟨0, 0, 0, []⟩ = (-(EINVAL : Int), ⟨0, 0, 0, []⟩) :=
  claim_C9_theorem.1 3 7 9 ⟨0, 0, 0, []⟩ (by decide)

/-! ## I2C driver (i2c_ite_it8xxx2.c) -/

/-- `I2C_STANDARD_PORT_COUNT`: ports 0..2 use the legacy SMBus register
personality, ports 3..5 the enhanced I2C personality. -/
def I2C_STANDARD_PORT_COUNT : Nat := 3

/-- `enum enhanced_i2c_ctl` (control-register bits of the enhanced ports). -/
def E_HW_RST : Nat := 0x01
def E_STOP : Nat := 0x02
def E_START : Nat := 0x04
def E_ACK : Nat := 0x08
def E_STS_RST : Nat := 0x10
def E_MODE_SEL : Nat := 0x20
def E_INT_EN : Nat := 0x40
def E_STS_AND_HW_RST : Nat := E_STS_RST ||| E_HW_RST
def E_START_ID : Nat := E_INT_EN ||| E_MODE_SEL ||| E_ACK ||| E_START ||| E_HW_RST
def E_FINISH : Nat := E_INT_EN ||| E_MODE_SEL ||| E_ACK ||| E_STOP ||| E_HW_RST

/-- `enum enhanced_i2c_host_status` (status-register bits, enhanced ports). -/
def E_HOSTA_ACK : Nat := 0x01
def E_HOSTA_TMOE : Nat := 0x08
def E_HOSTA_ARB : Nat := 0x10
def E_HOSTA_BB : Nat := 0x20
def E_HOSTA_BDS : Nat := 0x80
def E_HOSTA_ANY_ERROR : Nat := E_HOSTA_TMOE ||| E_HOSTA_ARB
def E_HOSTA_BDS_AND_ACK : Nat := E_HOSTA_BDS ||| E_HOSTA_ACK

/-- Modelled from the spec: the legacy SMBus host-status bits (`HOSTA_*`)
come from the it8xxx2 SoC header, not from this source file.  The spec
notes `HOSTA_NACK` as a distinct bit flag; the standard it83xx layout is
busy 0x01, finish 0x02, device error 0x04, bus error 0x08, fail 0x10,
NACK 0x20, timeout 0x40, byte-done 0x80.  Only the distinctness of these
values (and of `HOSTA_NACK` from `ETIMEDOUT`) matters to the claims. -/
def HOSTA_HOBY : Nat := 0x01
def HOSTA_FINTR : Nat := 0x02
def HOSTA_NACK : Nat := 0x20
def HOSTA_BDS : Nat := 0x80
def HOSTA_ANY_ERROR : Nat := 0x7C
def HOSTA_ALL_WC_BIT : Nat := HOSTA_FINTR ||| HOSTA_ANY_ERROR ||| HOSTA_BDS
def HOSTA_NEXT_BYTE : Nat := HOSTA_BDS

/-- Modelled from the spec: `I2C_CLK_LOW_TIMEOUT` (clock/data-low timeout
register value) from the SoC header; its value is immaterial here. -/
def I2C_CLK_LOW_TIMEOUT : Nat := 255

/-- `i2c_parsing_return_value`: map the recorded error code to the returned
errno, using the per-personality NACK encoding. -/
def i2c_parsing_return_value (port err : Nat) : Int :=
  if err = 0 then 0
  else if err = ETIMEDOUT then -(ETIMEDOUT : Int)
  else if port < I2C_STANDARD_PORT_COUNT then
    if err = HOSTA_NACK then -( ENXIO : Int) else -( EIO : Int)
  else
    if err = E_HOSTA_ACK then -( ENXIO : Int) else -( EIO : Int)

/-! ### configure / get_config (claim C10)

Modelled from the spec: the `I2C_*` configuration-word layout below comes
from Zephyr's `include/drivers/i2c.h` (speed field in bits 1..3, master
mode bit 4, 10-bit addressing bit 0), which is not part of this source. -/

def I2C_SPEED_STANDARD : Nat := 1
def I2C_SPEED_FAST : Nat := 2
def I2C_SPEED_FAST_PLUS : Nat := 3
def I2C_SPEED_SHIFT : Nat := 1
def I2C_SPEED_MASK : Nat := 0x7 <<< I2C_SPEED_SHIFT
def I2C_SPEED_SET (speed : Nat) : Nat := (speed <<< I2C_SPEED_SHIFT) &&& I2C_SPEED_MASK
def I2C_SPEED_GET (cfg : Nat) : Nat := (cfg &&& I2C_SPEED_MASK) >>> I2C_SPEED_SHIFT
def I2C_MODE_MASTER : Nat := 0x10
def I2C_ADDR_10_BITS : Nat := 0x01

/-- `i2c_it8xxx2_configure` restricted to its effect on `data->bus_freq` and
its return value.  The timing-register programming done by
`i2c_standard_port_set_frequency` / `i2c_enhanced_port_set_frequency` only
touches write-only clock registers and is not observed by any claim.  Note
the source stores `I2C_SPEED_GET(dev_config_raw)` into `data->bus_freq`
*before* validating it, so a failed call with an out-of-range speed still
overwrites the stored frequency. -/
def i2c_it8xxx2_configure (devConfigRaw busFreq : Nat) : Int × Nat :=
  if I2C_MODE_MASTER &&& devConfigRaw = 0 then (-(EINVAL : Int), busFreq)
  else if I2C_ADDR_10_BITS &&& devConfigRaw ≠ 0 then (-(EINVAL : Int), busFreq)
  else
    let bf := I2C_SPEED_GET devConfigRaw
    if bf = I2C_SPEED_STANDARD then (0, bf)
    else if bf = I2C_SPEED_FAST then (0, bf)
    else if bf = I2C_SPEED_FAST_PLUS then (0, bf)
    else (-(EINVAL : Int), bf)

/-- `i2c_it8xxx2_get_config`: reject an unset (zero) or out-of-range stored
frequency without writing the output word, else produce master mode
combined with the stored speed. -/
def i2c_it8xxx2_get_config (busFreq : Nat) : Int × Option Nat :=
  if busFreq = 0 then (-( EIO : Int), none)
  else if busFreq = I2C_SPEED_STANDARD then
    (0, some (I2C_MODE_MASTER ||| I2C_SPEED_SET I2C_SPEED_STANDARD))
  else if busFreq = I2C_SPEED_FAST then
    (0, some (I2C_MODE_MASTER ||| I2C_SPEED_SET I2C_SPEED_FAST))
  else if busFreq = I2C_SPEED_FAST_PLUS then
    (0, some (I2C_MODE_MASTER ||| I2C_SPEED_SET I2C_SPEED_FAST_PLUS))
  else (-(ERANGE : Int), none)

/-- The stored bus frequency after a sequence of `configure` calls. -/
def i2c_run_configures (raws : List Nat) (busFreq : Nat) : Nat :=
  raws.foldl (fun bf raw => (i2c_it8xxx2_configure raw bf).2) busFreq

/-- Every `configure` call in the sequence failed (returned nonzero). -/
def i2c_all_failed : List Nat → Nat → Bool
  | [], _ => true
  | raw :: rest, bf =>
    decide ((i2c_it8xxx2_configure raw bf).1 ≠ 0) &&
      i2c_all_failed rest (i2c_it8xxx2_configure raw bf).2

/-- C3: the completed transfer's return value is computed from the recorded
error code: 0 when no error; `-ETIMEDOUT` when the error is `ETIMEDOUT`;
otherwise, on a legacy port (index < 3), `-ENXIO` exactly when the error
equals `HOSTA_NACK` and `-EIO` for any other error, and on an enhanced
port `-ENXIO` exactly when the error equals `E_HOSTA_ACK` and `-EIO`
otherwise. -/
theorem claim_C3_theorem (port err : Nat) :
    (err = 0 → i2c_parsing_return_value port err = 0) ∧
    (err = ETIMEDOUT → i2c_parsing_return_value port err = -(ETIMEDOUT : Int)) ∧
    (err ≠ 0 → err ≠ ETIMEDOUT → port < I2C_STANDARD_PORT_COUNT →
      ((i2c_parsing_return_value port err = -( ENXIO : Int) ↔ err = HOSTA_NACK) ∧
       (err ≠ HOSTA_NACK → i2c_parsing_return_value port err = -( EIO : Int)))) ∧
    (err ≠ 0 → err ≠ ETIMEDOUT → ¬port < I2C_STANDARD_PORT_COUNT →
      ((i2c_parsing_return_value port err = -( ENXIO : Int) ↔ err = E_HOSTA_ACK) ∧
       (err ≠ E_HOSTA_ACK → i2c_parsing_return_value port err = -( EIO : Int)))) := by
  refine ⟨?_, ?_, ?_, ?_⟩
  · intro h
    simp [i2c_parsing_return_value, h]
  · intro h
    simp [i2c_parsing_return_value, h, ETIMEDOUT]
  · intro h1 h2 h3
    refine ⟨⟨?_, ?_⟩, ?_⟩
    · intro hv
      by_contra hne
      rw [i2c_parsing_return_value, if_neg h1, if_neg h2, if_pos h3, if_neg hne] at hv
      exact absurd hv (by decide)
    · intro he
      rw [i2c_parsing_return_value, if_neg h1, if_neg h2, if_pos h3, if_pos he]
    · intro hne
      rw [i2c_parsing_return_value, if_neg h1, if_neg h2, if_pos h3, if_neg hne]
  · intro h1 h2 h3
    refine ⟨⟨?_, ?_⟩, ?_⟩
    · intro hv
      by_contra hne
      rw [i2c_parsing_return_value, if_neg h1, if_neg h2, if_neg h3, if_neg hne] at hv
      exact absurd hv (by decide)
    · intro he
      rw [i2c_parsing_return_value, if_neg h1, if_neg h2, if_neg h3, if_pos he]
    · intro hne
      rw [i2c_parsing_return_value, if_neg h1, if_neg h2, if_neg h3, if_neg hne]

/-- Witness for the C3 theorem: a legacy-port NACK maps to `-ENXIO`, an
enhanced-port ACK-error maps to `-ENXIO`, and a stray legacy error code
maps to `-EIO`. -/
theorem claim_C3_witness :
    i2c_parsing_return_value 0 HOSTA_NACK = -( ENXIO : Int) ∧
    i2c_parsing_return_value 3 E_HOSTA_ACK = -( ENXIO : Int) ∧
    i2c_parsing_return_value 0 0x10 = -( EIO : Int) :=
  ⟨((claim_C3_theorem 0 HOSTA_NACK).2.2.1 (by decide) (by decide)
      (by decide)).1.mpr (by decide),
   ((claim_C3_theorem 3 E_HOSTA_ACK).2.2.2 (by decide) (by decide)
      (by decide)).1.mpr (by decide),
   ((claim_C3_theorem 0 0x10).2.2.1 (by decide) (by decide)
      (by decide)).2 (by decide)⟩

/-- Helper for C10: a failed `configure` call never leaves a valid speed
(1..3) in `bus_freq` if none was there before. -/
theorem i2c_configure_failed_preserves (raw bf : Nat)
    (hbf : bf ≠ I2C_SPEED_STANDARD ∧ bf ≠ I2C_SPEED_FAST ∧ bf ≠ I2C_SPEED_FAST_PLUS)
    (h : (i2c_it8xxx2_configure raw bf).1 ≠ 0) :
    (i2c_it8xxx2_configure raw bf).2 ≠ I2C_SPEED_STANDARD ∧
    (i2c_it8xxx2_configure raw bf).2 ≠ I2C_SPEED_FAST ∧
    (i2c_it8xxx2_configure raw bf).2 ≠ I2C_SPEED_FAST_PLUS := by
  unfold i2c_it8xxx2_configure at h ⊢
  by_cases h1 : I2C_MODE_MASTER &&& raw = 0
  · simp only [if_pos h1] at h ⊢
    exact hbf
  · simp only [if_neg h1] at h ⊢
    by_cases h2 : I2C_ADDR_10_BITS &&& raw ≠ 0
    · simp only [if_pos h2] at h ⊢
      exact hbf
    · simp only [if_neg h2] at h ⊢
      by_cases h3 : I2C_SPEED_GET raw = I2C_SPEED_STANDARD
      · rw [if_pos h3] at h
        exact absurd rfl h
      · simp only [if_neg h3] at h ⊢
        by_cases h4 : I2C_SPEED_GET raw = I2C_SPEED_FAST
        · rw [if_pos h4] at h
          exact absurd rfl h
        · simp only [if_neg h4] at h ⊢
          by_cases h5 : I2C_SPEED_GET raw = I2C_SPEED_FAST_PLUS
          · rw [if_pos h5] at h
            exact absurd rfl h
          · simp only [if_neg h5] at h ⊢
            exact ⟨h3, h4, h5⟩

/-- Helper for C10: when the stored frequency is not a valid speed,
`get_config` fails and leaves the output word unwritten. -/
theorem i2c_get_config_invalid (bf : Nat)
    (hbf : bf ≠ I2C_SPEED_STANDARD ∧ bf ≠ I2C_SPEED_FAST ∧ bf ≠ I2C_SPEED_FAST_PLUS) :
    (i2c_it8xxx2_get_config bf).1 ≠ 0 ∧ (i2c_it8xxx2_get_config bf).2 = none := by
  unfold i2c_it8xxx2_get_config
  split_ifs with h1 h2 h3 h4
  · exact ⟨by decide, rfl⟩
  · exact absurd h2 hbf.1
  · exact absurd h3 hbf.2.1
  · exact absurd h4 hbf.2.2
  · exact ⟨by decide, rfl⟩

/-- Helper for C10: invalid-speed preservation along a whole sequence of
failed `configure` calls. -/
theorem i2c_run_configures_failed (raws : List Nat) :
    ∀ bf : Nat,
      bf ≠ I2C_SPEED_STANDARD ∧ bf ≠ I2C_SPEED_FAST ∧ bf ≠ I2C_SPEED_FAST_PLUS →
      i2c_all_failed raws bf = true →
      i2c_run_configures raws bf ≠ I2C_SPEED_STANDARD ∧
      i2c_run_configures raws bf ≠ I2C_SPEED_FAST ∧
      i2c_run_configures raws bf ≠ I2C_SPEED_FAST_PLUS := by
  induction raws with
  | nil => intro bf hbf _; exact hbf
  | cons raw rest ih =>
    intro bf hbf hfail
    rw [i2c_all_failed, Bool.and_eq_true, decide_eq_true_eq] at hfail
    exact ih _ (i2c_configure_failed_preserves raw bf hbf hfail.1) hfail.2

/-- C10 (amended): starting from the uninitialized state (`bus_freq = 0`),
if every `configure` call so far failed then `get_config` returns an error
and leaves the output configuration word unwritten; and immediately after a
successful `configure`, `get_config` returns master mode combined with
exactly the speed that call stored.  (A *later* failed `configure` with the
master bit set and an out-of-range speed overwrites the stored frequency
before rejecting it, so "the speed most recently configured" fails in
general.) -/
theorem claim_C10_theorem :
    (∀ raws : List Nat, i2c_all_failed raws 0 = true →
      (i2c_it8xxx2_get_config (i2c_run_configures raws 0)).1 ≠ 0 ∧
      (i2c_it8xxx2_get_config (i2c_run_configures raws 0)).2 = none) ∧
    (∀ raw bf : Nat, (i2c_it8xxx2_configure raw bf).1 = 0 →
      i2c_it8xxx2_get_config (i2c_it8xxx2_configure raw bf).2 =
        (0, some (I2C_MODE_MASTER ||| I2C_SPEED_SET (I2C_SPEED_GET raw))) ∧
      (i2c_it8xxx2_configure raw bf).2 = I2C_SPEED_GET raw) := by
  constructor
  · intro raws hfail
    exact i2c_get_config_invalid _
      (i2c_run_configures_failed raws 0 (by decide) hfail)
  · intro raw bf hok
    unfold i2c_it8xxx2_configure at hok ⊢
    by_cases h1 : I2C_MODE_MASTER &&& raw = 0
    · rw [if_pos h1] at hok
      exact absurd hok (by norm_num [EINVAL])
    · simp only [if_neg h1] at hok ⊢
      by_cases h2 : I2C_ADDR_10_BITS &&& raw ≠ 0
      · rw [if_pos h2] at hok
        exact absurd hok (by norm_num [EINVAL])
      · simp only [if_neg h2] at hok ⊢
        by_cases h3 : I2C_SPEED_GET raw = I2C_SPEED_STANDARD
        · simp only [if_pos h3]
          rw [h3]
          exact ⟨by decide, by decide⟩
        · simp only [if_neg h3] at hok ⊢
          by_cases h4 : I2C_SPEED_GET raw = I2C_SPEED_FAST
          · simp only [if_pos h4]
            rw [h4]
            exact ⟨by decide, by decide⟩
          · simp only [if_neg h4] at hok ⊢
            by_cases h5 : I2C_SPEED_GET raw = I2C_SPEED_FAST_PLUS
            · simp only [if_pos h5]
              rw [h5]
              exact ⟨by decide, by decide⟩
            · rw [if_neg h5] at hok
              exact absurd hok (by norm_num [EINVAL])

/-- C10 counterexample: a successful standard-speed `configure` followed by
a *failed* `configure` carrying `I2C_SPEED_HIGH` (4) leaves `bus_freq = 4`,
and `get_config` then returns `-ERANGE` instead of master|standard: "the
speed most recently configured" by a successful call is not returned. -/
theorem claim_C10_counterexample :
    (i2c_it8xxx2_configure (I2C_MODE_MASTER ||| I2C_SPEED_SET I2C_SPEED_STANDARD) 0).1 = 0 ∧
    (i2c_it8xxx2_configure (I2C_MODE_MASTER ||| I2C_SPEED_SET I2C_SPEED_STANDARD) 0).2 = 1 ∧
    (i2c_it8xxx2_configure (I2C_MODE_MASTER ||| I2C_SPEED_SET 4) 1).1 = -(EINVAL : Int) ∧
    (i2c_it8xxx2_configure (I2C_MODE_MASTER ||| I2C_SPEED_SET 4) 1).2 = 4 ∧
    i2c_it8xxx2_get_config 4 = (-(ERANGE : Int), none) ∧
    (-(ERANGE : Int), (none : Option Nat)) ≠
      (0, some (I2C_MODE_MASTER ||| I2C_SPEED_SET I2C_SPEED_STANDARD)) := by decide

/-- Witness for the C10 theorem: before any configure, `get_config` fails
with the word unwritten; right after a successful fast-speed configure it
returns master|fast. -/
theorem claim_C10_witness :
    ((i2c_it8xxx2_get_config (i2c_run_configures [] 0)).1 ≠ 0 ∧
      (i2c_it8xxx2_get_config (i2c_run_configures [] 0)).2 = none) ∧
    i2c_it8xxx2_get_config
        (i2c_it8xxx2_configure (I2C_MODE_MASTER ||| I2C_SPEED_SET I2C_SPEED_FAST) 0).2 =
      (0, some (I2C_MODE_MASTER |||
        I2C_SPEED_SET (I2C_SPEED_GET (I2C_MODE_MASTER ||| I2C_SPEED_SET I2C_SPEED_FAST)))) :=
  ⟨claim_C10_theorem.1 [] (by decide),
   (claim_C10_theorem.2 (I2C_MODE_MASTER ||| I2C_SPEED_SET I2C_SPEED_FAST) 0 (by decide)).1⟩

/-! ### Bus recovery (claim C8) -/

/-- Register identifiers of the two hardware personalities. -/
inductive I2CReg where
  | HOCTL | HOCTL2 | HOSTA | TRASLA | HOBDB
  | CTR | CTR1 | DTR | PSR | HSPR | TOR
deriving DecidableEq, Repr

/-- `i2c_reset`: the register writes that kill the current transaction and
reset the controller, per personality. -/
def i2c_reset_writes (port : Nat) : List (I2CReg × Nat) :=
  if port < I2C_STANDARD_PORT_COUNT then
    [(.HOCTL, 0x2), (.HOCTL, 0), (.HOSTA, HOSTA_ALL_WC_BIT)]
  else
    [(.CTR, E_STS_AND_HW_RST)]

/-- The SCL / SDA pin roles (`config->alts_list[SCL]`, `[SDA]`). -/
inductive I2CPin where
  | scl | sda
deriving DecidableEq, Repr

/-- One externally visible action of `i2c_it8xxx2_recover_bus`. -/
inductive RecoverAct where
  /-- `pinmux_pin_input_enable(..., PINMUX_OUTPUT_ENABLED)`: pin to GPIO. -/
  | pinGpio (p : I2CPin)
  /-- `pinmux_pin_set(...)`: pin back to its I2C alternate function. -/
  | pinAltFunc (p : I2CPin)
  /-- `gpio_pin_set(gpio_dev, pin, level)`. -/
  | gpioSet (p : I2CPin) (level : Nat)
  /-- `k_msleep(ms)`. -/
  | sleepMs (ms : Nat)
  /-- a controller register write performed by `i2c_reset`. -/
  | regWrite (r : I2CReg) (v : Nat)
deriving DecidableEq, Repr

/-- The body of the 9-iteration recovery loop: SDA high, one SCL pulse. -/
def i2c_recover_pulse : List RecoverAct :=
  [.gpioSet .sda 1, .gpioSet .scl 1, .sleepMs 1, .gpioSet .scl 0, .sleepMs 1]

/-- `i2c_it8xxx2_recover_bus`: reassign pins to GPIO, drive both high, a
start condition, nine SCL pulses with SDA held high, a stop condition,
restore the alternate function, reset the controller, return 0. -/
def i2c_it8xxx2_recover_bus (port : Nat) : Int × List RecoverAct :=
  (0,
    [.pinGpio .scl, .pinGpio .sda,
     .gpioSet .scl 1, .gpioSet .sda 1, .sleepMs 1,
     .gpioSet .sda 0, .sleepMs 1, .gpioSet .scl 0, .sleepMs 1] ++
    (List.replicate 9 i2c_recover_pulse).flatten ++
    [.gpioSet .sda 0, .sleepMs 1,
     .gpioSet .scl 1, .sleepMs 1, .gpioSet .sda 1, .sleepMs 1] ++
    [.pinAltFunc .scl, .pinAltFunc .sda] ++
    (i2c_reset_writes port).map (fun w => RecoverAct.regWrite w.1 w.2))

/-- Number of SCL rising edges in a recovery-action segment. -/
def countSclRises (l : List RecoverAct) : Nat :=
  l.countP (fun a => decide (a = RecoverAct.gpioSet .scl 1))

/-- C8: every `recover_bus` invocation returns success (0) unconditionally
and its action trace decomposes as: initial start condition, then a pulse
segment with exactly 9 SCL rising edges during which SDA is never driven
low (it is driven high before each pulse), then a stop condition
(SDA low, SCL high, SDA high), then restoration of both pins to the I2C
alternate function, and finally the personality's hardware reset writes. -/
theorem claim_C8_theorem (port : Nat) :
    (i2c_it8xxx2_recover_bus port).1 = 0 ∧
    (i2c_it8xxx2_recover_bus port).2 =
      [.pinGpio .scl, .pinGpio .sda,
       .gpioSet .scl 1, .gpioSet .sda 1, .sleepMs 1,
       .gpioSet .sda 0, .sleepMs 1, .gpioSet .scl 0, .sleepMs 1] ++
      (List.replicate 9 i2c_recover_pulse).flatten ++
      ([.gpioSet .sda 0, .sleepMs 1,
        .gpioSet .scl 1, .sleepMs 1, .gpioSet .sda 1, .sleepMs 1] ++
       [.pinAltFunc .scl, .pinAltFunc .sda] ++
       (i2c_reset_writes port).map (fun w => RecoverAct.regWrite w.1 w.2)) ∧
    countSclRises (List.replicate 9 i2c_recover_pulse).flatten = 9 ∧
    (∀ a ∈ (List.replicate 9 i2c_recover_pulse).flatten,
      a ≠ RecoverAct.gpioSet .sda 0) ∧
    countSclRises
      [RecoverAct.gpioSet .sda 0, .sleepMs 1,
       .gpioSet .scl 1, .sleepMs 1, .gpioSet .sda 1, .sleepMs 1] = 1 := by
  refine ⟨rfl, ?_, by decide, by decide, by decide⟩
  simp [i2c_it8xxx2_recover_bus, List.append_assoc]

/-! ### Transfer orchestrator and byte-pump state machine (claims C1, C2)

The interrupt-driven pump is embedded as a step function on the driver
state.  Hardware status/data reads are supplied by an explicit oracle (one
`HwIn` per `i2c_transaction` invocation: the ISR sees one stable status
value per interrupt), register writes go to a ghost log, and the
interrupt line is a tracked boolean: ISR events can only fire while it is
enabled.  The mutex is the identity in this single-controller
interleaving (one transfer at a time); `num_msgs` is taken to be the
length of the message list; the NULL-pointer guards of the C entry point
are outside the model (the claims presuppose a non-null message array). -/

/-- Channel status (`enum i2c_ch_status`). -/
inductive ChStatus where
  | normal | repeatStart | waitRead | waitNextXfer
deriving DecidableEq, Repr

/-- One message of a transfer (`struct i2c_msg`) with its driver-mutated
fields: `start` is the driver-private `I2C_MSG_START` bit (bit 5 of
`flags`), cleared by the state machine, and `len` is zeroed on message
completion.  `wdata` holds the bytes behind `buf` for a write message. -/
structure I2CMsg where
  isRead : Bool
  stop : Bool
  start : Bool
  len : Nat
  wdata : List Nat
deriving DecidableEq, Repr

instance : Inhabited I2CMsg := ⟨⟨false, false, false, 0, []⟩⟩

/-- Hardware values read during one `i2c_transaction` invocation:
`IT83XX_SMB_HOSTA` (legacy), `IT83XX_I2C_STR` (enhanced), and the receive
data register (`HOBDB`/`DRR`). -/
structure HwIn where
  hosta : Nat
  str : Nat
  dataIn : Nat
deriving DecidableEq, Repr

instance : Inhabited HwIn := ⟨⟨0, 0, 0⟩⟩

/-- `struct i2c_it8xxx2_data` plus the aliased message array, the registers
the driver reads back after writing (`CTR`, `HOCTL`, `HOCTL2`), the
interrupt-enable line, and ghost instrumentation. -/
structure DState where
  i2ccs : ChStatus
  widx : Nat
  ridx : Nat
  err : Nat
  addr16 : Nat
  freq : Nat
  stopf : Bool
  msgs : List I2CMsg
  cur : Nat
  rbuf : List Nat
  irqOn : Bool
  ctr : Nat
  hoctl : Nat
  hoctl2 : Nat
  resets : Nat
  log : List (I2CReg × Nat)
deriving DecidableEq, Repr

/-- Write a register that the driver never reads back. -/
def dsWrite (r : I2CReg) (v : Nat) (st : DState) : DState :=
  { st with log := st.log ++ [(r, v)] }

def dsWriteCtr (v : Nat) (st : DState) : DState :=
  { st with ctr := v, log := st.log ++ [(.CTR, v)] }

def dsWriteHoctl (v : Nat) (st : DState) : DState :=
  { st with hoctl := v, log := st.log ++ [(.HOCTL, v)] }

def dsWriteHoctl2 (v : Nat) (st : DState) : DState :=
  { st with hoctl2 := v, log := st.log ++ [(.HOCTL2, v)] }

/-- The message `data->msgs` points at. -/
def curMsg (st : DState) : I2CMsg := st.msgs.getD st.cur default

/-- Mutate the message `data->msgs` points at. -/
def updMsg (f : I2CMsg → I2CMsg) (st : DState) : DState :=
  { st with msgs := st.msgs.set st.cur (f (st.msgs.getD st.cur default)) }

/-- `i2c_reset`: kill the current transaction and reset the controller
(plus a ghost counter of reset invocations). -/
def i2c_reset (port : Nat) (st : DState) : DState :=
  if port < I2C_STANDARD_PORT_COUNT then
    let st := dsWriteHoctl 0x2 st
    let st := dsWriteHoctl 0 st
    let st := dsWrite .HOSTA HOSTA_ALL_WC_BIT st
    { st with resets := st.resets + 1 }
  else
    let st := dsWriteCtr E_STS_AND_HW_RST st
    { st with resets := st.resets + 1 }

/-- `enhanced_i2c_start`: hardware+state reset, program the frequency and
timeout registers, enable the module. -/
def enhanced_i2c_start (st : DState) : DState :=
  let st := dsWriteCtr E_STS_AND_HW_RST st
  let st := dsWrite .PSR st.freq st
  let st := dsWrite .HSPR st.freq st
  let st := dsWrite .TOR I2C_CLK_LOW_TIMEOUT st
  dsWrite .CTR1 2 st

/-- `i2c_pio_trans_data`: write the address or data byte and the control
bits for the next enhanced-mode transmission (NACK on the last byte of a
STOP-flagged read). -/
def i2c_pio_trans_data (rxDirect : Bool) (transData : Nat) (firstByte : Bool)
    (st : DState) : DState :=
  if firstByte then
    let st := dsWrite .DTR ((transData ||| (if rxDirect then 1 else 0)) % 256) st
    dsWriteCtr E_START_ID st
  else
    let st := if rxDirect then st else dsWrite .DTR (transData % 256) st
    let nack : Bool := rxDirect &&
      decide (st.ridx + 1 = (curMsg st).len ∧ (curMsg st).stop = true)
    dsWriteCtr (E_INT_EN ||| E_MODE_SEL ||| E_HW_RST |||
      (if nack then 0 else E_ACK)) st

/-- `enhanced_i2c_error`: record hardware errors or a missing ACK into
`data->err` (reading back the last written `CTR` value). -/
def enhanced_i2c_error (hw : HwIn) (st : DState) : DState :=
  if hw.str &&& E_HOSTA_ANY_ERROR ≠ 0 then
    { st with err := hw.str &&& E_HOSTA_ANY_ERROR }
  else if hw.str &&& E_HOSTA_BDS_AND_ACK = E_HOSTA_BDS then
    if st.ctr &&& E_ACK ≠ 0 then { st with err := E_HOSTA_ACK } else st
  else st

/-- `enhanced_i2c_tran_read`: one pump step of an enhanced-port read
message.  Returns the C `return` value (1 = more work, 0 = done). -/
def enhanced_i2c_tran_read (hw : HwIn) (st : DState) : DState × Nat :=
  if (curMsg st).start then
    let st := updMsg (fun m => { m with start := false }) st
    let st := enhanced_i2c_start st
    let st := { st with i2ccs := .waitRead }
    (i2c_pio_trans_data true ((st.addr16 <<< 1) % 65536) true st, 1)
  else if st.i2ccs ≠ .normal then
    let st :=
      if st.i2ccs = .waitRead then
        let st := { st with i2ccs := .normal }
        i2c_pio_trans_data true 0 false st
      else
        let st := { st with i2ccs := .waitRead }
        i2c_pio_trans_data true ((st.addr16 <<< 1) % 65536) true st
    ({ st with irqOn := true }, 1)
  else if st.ridx < (curMsg st).len then
    let st := { st with rbuf := st.rbuf ++ [hw.dataIn], ridx := st.ridx + 1 }
    if st.ridx = (curMsg st).len then
      let st := updMsg (fun m => { m with len := 0 }) st
      if (curMsg st).stop then
        let st := { st with i2ccs := .normal }
        let st := dsWriteCtr E_FINISH st
        ({ st with stopf := true }, 1)
      else
        ({ st with i2ccs := .waitRead }, 0)
    else
      (i2c_pio_trans_data true 0 false st, 1)
  else (st, 1)

/-- `enhanced_i2c_tran_write`: one pump step of an enhanced-port write
message (it reads no hardware register). -/
def enhanced_i2c_tran_write (st : DState) : DState × Nat :=
  if (curMsg st).start then
    let st := updMsg (fun m => { m with start := false }) st
    let st := enhanced_i2c_start st
    (i2c_pio_trans_data false ((st.addr16 <<< 1) % 65536) true st, 1)
  else if st.widx < (curMsg st).len then
    let outData := (curMsg st).wdata.getD st.widx 0
    let st := { st with widx := st.widx + 1 }
    let st := i2c_pio_trans_data false outData false st
    if st.i2ccs = .waitNextXfer then
      ({ st with i2ccs := .normal, irqOn := true }, 1)
    else (st, 1)
  else
    let st := updMsg (fun m => { m with len := 0 }) st
    if (curMsg st).stop then
      let st := dsWriteCtr E_FINISH st
      ({ st with stopf := true }, 1)
    else
      ({ st with i2ccs := .waitNextXfer }, 0)

/-- `i2c_r_last_byte`: pre-acknowledge the last byte of a STOP-flagged
legacy read (`HOCTL |= 0x20`). -/
def i2c_r_last_byte (st : DState) : DState :=
  if (curMsg st).stop = true ∧ st.ridx + 1 = (curMsg st).len then
    dsWriteHoctl (st.hoctl ||| 0x20) st
  else st

/-- `i2c_w2r_change_direction`: the legacy write-to-read direction change
(toggle the switch-direction wait/enable pair in `HOCTL2`). -/
def i2c_w2r_change_direction (st : DState) : DState :=
  if st.hoctl2 &&& 0x08 ≠ 0 then
    let st := i2c_r_last_byte st
    dsWrite .HOSTA HOSTA_NEXT_BYTE st
  else
    let st := dsWriteHoctl2 (st.hoctl2 ||| 0x0C) st
    let st := dsWrite .HOSTA HOSTA_NEXT_BYTE st
    let st := i2c_r_last_byte st
    dsWriteHoctl2 (st.hoctl2 &&& 0xFB) st

/-- `i2c_tran_read`: one pump step of a legacy-port read message. -/
def i2c_tran_read (hw : HwIn) (st : DState) : DState × Nat :=
  if (curMsg st).start then
    let st := dsWriteHoctl2 0x13 st
    let st := dsWrite .TRASLA (((st.addr16 <<< 1) % 256) ||| 0x01) st
    let st := updMsg (fun m => { m with start := false }) st
    if (curMsg st).len = 1 ∧ (curMsg st).stop = true then
      (dsWriteHoctl 0x7D st, 1)
    else
      (dsWriteHoctl 0x5D st, 1)
  else if st.i2ccs = .repeatStart ∨ st.i2ccs = .waitRead then
    let st :=
      if st.i2ccs = .repeatStart then i2c_w2r_change_direction st
      else
        let st := i2c_r_last_byte st
        dsWrite .HOSTA HOSTA_NEXT_BYTE st
    ({ st with i2ccs := .normal, irqOn := true }, 1)
  else if hw.hosta &&& HOSTA_BDS ≠ 0 then
    if st.ridx < (curMsg st).len then
      let st := { st with rbuf := st.rbuf ++ [hw.dataIn], ridx := st.ridx + 1 }
      let st := i2c_r_last_byte st
      if st.ridx = (curMsg st).len then
        let st := updMsg (fun m => { m with len := 0 }) st
        if (curMsg st).stop then
          let st := dsWrite .HOSTA HOSTA_NEXT_BYTE st
          ({ st with stopf := true }, 1)
        else
          ({ st with i2ccs := .waitRead }, 0)
      else
        (dsWrite .HOSTA HOSTA_NEXT_BYTE st, 1)
    else (st, 1)
  else (st, 1)

/-- `i2c_tran_write`: one pump step of a legacy-port write message. -/
def i2c_tran_write (hw : HwIn) (st : DState) : DState × Nat :=
  if (curMsg st).start then
    let st := dsWriteHoctl2 0x13 st
    let st := dsWrite .TRASLA ((st.addr16 <<< 1) % 256) st
    let st := dsWrite .HOBDB ((curMsg st).wdata.getD 0 0) st
    let st := { st with widx := st.widx + 1 }
    let st := updMsg (fun m => { m with start := false }) st
    (dsWriteHoctl 0x5D st, 1)
  else if hw.hosta &&& HOSTA_BDS ≠ 0 then
    if st.widx < (curMsg st).len then
      let st := dsWrite .HOBDB ((curMsg st).wdata.getD st.widx 0) st
      let st := { st with widx := st.widx + 1 }
      let st := dsWrite .HOSTA HOSTA_NEXT_BYTE st
      if st.i2ccs = .repeatStart then
        ({ st with i2ccs := .normal, irqOn := true }, 1)
      else (st, 1)
    else
      let st := updMsg (fun m => { m with len := 0 }) st
      if (curMsg st).stop then
        let st := dsWriteHoctl2 0x11 st
        let st := dsWrite .HOSTA HOSTA_NEXT_BYTE st
        ({ st with stopf := true }, 1)
      else
        ({ st with i2ccs := .repeatStart }, 0)
  else (st, 1)

/-- `i2c_transaction`: one invocation of the per-interrupt dispatcher
(also called once in caller context to kick each message). -/
def i2c_transaction (port : Nat) (hw : HwIn) (st : DState) : DState × Nat :=
  if port < I2C_STANDARD_PORT_COUNT then
    if hw.hosta &&& HOSTA_ANY_ERROR ≠ 0 then
      let st := { st with err := hw.hosta &&& HOSTA_ANY_ERROR }
      let st := dsWrite .HOSTA HOSTA_ALL_WC_BIT st
      let st := dsWriteHoctl2 0x00 st
      ({ st with stopf := false }, 0)
    else if st.stopf = false then
      if (curMsg st).isRead then i2c_tran_read hw st
      else i2c_tran_write hw st
    else if hw.hosta &&& HOSTA_FINTR = 0 then (st, 1)
    else
      let st := dsWrite .HOSTA HOSTA_ALL_WC_BIT st
      let st := dsWriteHoctl2 0x00 st
      ({ st with stopf := false }, 0)
  else
    let st := enhanced_i2c_error hw st
    if st.err = 0 ∧ st.stopf = false then
      if (curMsg st).isRead then enhanced_i2c_tran_read hw st
      else enhanced_i2c_tran_write st
    else
      let st := dsWriteCtr E_STS_AND_HW_RST st
      let st := dsWrite .CTR1 0 st
      ({ st with stopf := false }, 0)

/-- The `k_sem_take` wait for one message: ISR invocations (driven by the
event oracle, one status per interrupt) run only while the interrupt line
is enabled; when a step reports done, the ISR gives the semaphore and
disables the line.  Returns `true` iff the semaphore was given within the
bounded wait. -/
def i2c_wait_events (port : Nat) : List HwIn → DState → DState × Bool
  | [], st => (st, false)
  | e :: es, st =>
    if st.irqOn = false then (st, false)
    else
      let r := i2c_transaction port e st
      if r.2 ≠ 0 then i2c_wait_events port es r.1
      else ({ r.1 with irqOn := false }, true)

/-- The per-message oracle: the status seen by the caller-context kick and
the statuses seen by the subsequent ISR invocations. -/
structure MsgOracle where
  kick : HwIn
  events : List HwIn
deriving DecidableEq, Repr

instance : Inhabited MsgOracle := ⟨⟨default, []⟩⟩

/-- One iteration of the transfer loop body: reset the per-message cursors
and error, point `data->msgs` at message `i`, enable the interrupt if the
*first* message still carries the START flag, kick the transaction, wait,
and disable the interrupt line.  Returns the state and whether the
semaphore was given (false = the 100 ms wait timed out). -/
def i2c_msg_attempt (port addr : Nat) (orc : MsgOracle) (i : Nat) (st : DState) :
    DState × Bool :=
  let st := { st with widx := 0, ridx := 0, err := 0, cur := i, addr16 := addr }
  let st := if (st.msgs.getD 0 default).start then
      { st with i2ccs := .normal, irqOn := true } else st
  let st := (i2c_transaction port orc.kick st).1
  let r := i2c_wait_events port orc.events st
  ({ r.1 with irqOn := false }, r.2)

/-- The transfer loop from message `i` with `n` messages remaining: abort
on any recorded error; on a timeout with no recorded error, record
`ETIMEDOUT` and reset the controller; in both cases the remaining messages
are skipped.  Returns the state, the number of messages attempted, and the
ghost list of per-message semaphore outcomes. -/
def i2c_xfer_loop (port addr : Nat) (orcs : List MsgOracle) :
    Nat → Nat → DState → DState × Nat × List Bool
  | i, 0, st => (st, i, [])
  | i, n + 1, st =>
    let r := i2c_msg_attempt port addr (orcs.getD i default) i st
    if r.1.err ≠ 0 then (r.1, i + 1, [r.2])
    else if r.2 = false then
      (i2c_reset port { r.1 with err := ETIMEDOUT }, i + 1, [false])
    else
      let rest := i2c_xfer_loop port addr orcs (i + 1) n r.1
      (rest.1, rest.2.1, r.2 :: rest.2.2)

/-- Set `I2C_MSG_START` on the first message (`msgs->flags |= I2C_MSG_START`). -/
def i2c_set_start_flag (st : DState) : DState :=
  { st with msgs := st.msgs.set 0 { st.msgs.getD 0 default with start := true } }

/-- The pre-loop phase of `i2c_it8xxx2_transfer`: when not continuing a
combined transaction, check bus availability (oracle booleans for the two
`i2c_bus_not_available` probes), recover once if needed (whose
controller-level effect is the `i2c_reset` at its end), and mark the first
message START.  The second component is false when the transaction is
dropped with `-EIO`. -/
def i2c_xfer_enter (port : Nat) (msgs : List I2CMsg)
    (busAvail1 busAvail2 : Bool) (st0 : DState) : DState × Bool :=
  let st := { st0 with msgs := msgs }
  if st.i2ccs = .normal then
    if busAvail1 = false then
      let st := i2c_reset port st
      if busAvail2 = false then (st, false)
      else (i2c_set_start_flag st, true)
    else (i2c_set_start_flag st, true)
  else (st, true)

/-- The loop plus the post-loop epilogue and the errno mapping: after the
loop, if an error was recorded or the *first* message (`msgs->flags`, the
base pointer) carries STOP, reset the channel status to NORMAL. -/
def i2c_transfer_main (port addr : Nat) (orcs : List MsgOracle) (st : DState) :
    Int × DState × Nat × List Bool :=
  let r := i2c_xfer_loop port addr orcs 0 st.msgs.length st
  let stF := if r.1.err ≠ 0 ∨ (r.1.msgs.getD 0 default).stop = true then
      { r.1 with i2ccs := .normal } else r.1
  (i2c_parsing_return_value port stF.err, stF, r.2.1, r.2.2)

/-- `i2c_it8xxx2_transfer`: returns the mapped errno, the final driver
state, the number of messages attempted, and the ghost per-message
semaphore outcomes. -/
def i2c_it8xxx2_transfer (port addr : Nat) (msgs : List I2CMsg)
    (busAvail1 busAvail2 : Bool) (orcs : List MsgOracle) (st0 : DState) :
    Int × DState × Nat × List Bool :=
  let e := i2c_xfer_enter port msgs busAvail1 busAvail2 st0
  if e.2 = false then (-( EIO : Int), e.1, 0, [])
  else i2c_transfer_main port addr orcs e.1

/-- `i2c_reset` leaves the software error code and the interrupt line
untouched and bumps the ghost reset counter. -/
theorem i2c_reset_fields (port : Nat) (st : DState) :
    (i2c_reset port st).err = st.err ∧
    (i2c_reset port st).resets = st.resets + 1 ∧
    (i2c_reset port st).irqOn = st.irqOn := by
  unfold i2c_reset dsWriteHoctl dsWrite dsWriteCtr
  split_ifs <;> exact ⟨rfl, rfl, rfl⟩

/-- Every message attempt ends with the interrupt line disabled
(`irq_disable` after the wait returns, whether by semaphore or timeout). -/
theorem i2c_msg_attempt_irq_off (port addr : Nat) (orc : MsgOracle) (i : Nat)
    (st : DState) : (i2c_msg_attempt port addr orc i st).1.irqOn = false := rfl

/-- C2 (amended): for every message of a transfer call, if the bounded wait
on the completion semaphore times out *and no per-message error was already
recorded* (the error check precedes the timeout check), the transfer
records `ETIMEDOUT`, performs a hardware reset of the controller, aborts
all remaining messages of the call (exactly `i + 1` messages attempted),
leaves the interrupt line disabled, and the recorded code maps to
`-ETIMEDOUT` at the call boundary.  When an error was already recorded
when the wait timed out, the loop instead aborts with that error, without
the timeout marking or the reset. -/
theorem claim_C2_theorem (port addr : Nat) (orcs : List MsgOracle)
    (i n : Nat) (st : DState)
    (herr : (i2c_msg_attempt port addr (orcs.getD i default) i st).1.err = 0)
    (hsem : (i2c_msg_attempt port addr (orcs.getD i default) i st).2 = false) :
    i2c_xfer_loop port addr orcs i (n + 1) st =
      (i2c_reset port
        { (i2c_msg_attempt port addr (orcs.getD i default) i st).1 with
            err := ETIMEDOUT }, i + 1, [false]) ∧
    (i2c_xfer_loop port addr orcs i (n + 1) st).1.err = ETIMEDOUT ∧
    (i2c_xfer_loop port addr orcs i (n + 1) st).1.resets =
      (i2c_msg_attempt port addr (orcs.getD i default) i st).1.resets + 1 ∧
    (i2c_xfer_loop port addr orcs i (n + 1) st).1.irqOn = false ∧
    (i2c_xfer_loop port addr orcs i (n + 1) st).2.1 = i + 1 ∧
    i2c_parsing_return_value port ETIMEDOUT = -(ETIMEDOUT : Int) := by
  have heq : i2c_xfer_loop port addr orcs i (n + 1) st =
      (i2c_reset port
        { (i2c_msg_attempt port addr (orcs.getD i default) i st).1 with
            err := ETIMEDOUT }, i + 1, [false]) := by
    simp only [i2c_xfer_loop]
    rw [if_neg (fun hne => hne herr), if_pos hsem]
  have hr := i2c_reset_fields port
    { (i2c_msg_attempt port addr (orcs.getD i default) i st).1 with
        err := ETIMEDOUT }
  refine ⟨heq, ?_, ?_, ?_, ?_, ?_⟩
  · rw [heq]
    exact hr.1
  · rw [heq]
    exact hr.2.1
  · rw [heq]
    rw [hr.2.2]
    exact i2c_msg_attempt_irq_off port addr (orcs.getD i default) i st
  · rw [heq]
  · rw [i2c_parsing_return_value, if_neg (by decide), if_pos rfl]

/-- The zero-initialized driver state (`static struct i2c_it8xxx2_data`,
after `init` sets `i2ccs = I2C_CH_NORMAL`). -/
def i2cInitState : DState := ⟨.normal, 0, 0, 0, 0, 0, false, [], 0, [], false, 0, 0, 0, 0, []⟩

/-- C2 counterexample inputs: a single STOP-flagged write whose
caller-context kick observes a hardware FAIL status (0x10), so an error is
recorded before the wait; no interrupt ever fires, so the wait times out. -/
def c2CexMsgs : List I2CMsg := [⟨false, true, false, 1, [0xAA]⟩]

def c2CexOrcs : List MsgOracle := [⟨⟨0x10, 0, 0⟩, []⟩]

/-- C2 counterexample: the semaphore wait for the (only) message times out
(ghost outcome `[false]`), yet the call returns `-EIO` — not `-ETIMEDOUT` —
and performs no `i2c_reset` (ghost counter 0): the kick had already
recorded error 0x10 and the error check at the loop bottom precedes the
timeout branch.  The claim that a timed-out wait always records
`ETIMEDOUT` and forces a hardware reset is therefore false.  (The
interrupt line does end the call disabled.) -/
theorem claim_C2_counterexample :
    (i2c_it8xxx2_transfer 0 0x50 c2CexMsgs true true c2CexOrcs i2cInitState).2.2.2 =
      [false] ∧
    (i2c_it8xxx2_transfer 0 0x50 c2CexMsgs true true c2CexOrcs i2cInitState).1 =
      -( EIO : Int) ∧
    -( EIO : Int) ≠ -(ETIMEDOUT : Int) ∧
    (i2c_it8xxx2_transfer 0 0x50 c2CexMsgs true true c2CexOrcs i2cInitState).2.1.err =
      0x10 ∧
    (i2c_it8xxx2_transfer 0 0x50 c2CexMsgs true true c2CexOrcs i2cInitState).2.1.resets =
      0 ∧
    (i2c_it8xxx2_transfer 0 0x50 c2CexMsgs true true c2CexOrcs i2cInitState).2.1.irqOn =
      false := by decide

/-- C2 witness inputs: a clean kick (no status bits) and no interrupt
events, so the wait times out with no recorded error. -/
def c2WitOrcs : List MsgOracle := [⟨⟨0, 0, 0⟩, []⟩]

def c2WitState : DState := (i2c_xfer_enter 0 c2CexMsgs true true i2cInitState).1

/-- Witness for the C2 theorem: a clean timeout on the first message
records `ETIMEDOUT`, resets the controller once, attempts exactly one
message, and ends with the interrupt disabled. -/
theorem claim_C2_witness :
    (i2c_xfer_loop 0 0x50 c2WitOrcs 0 1 c2WitState).1.err = ETIMEDOUT ∧
    (i2c_xfer_loop 0 0x50 c2WitOrcs 0 1 c2WitState).1.resets =
      (i2c_msg_attempt 0 0x50 (c2WitOrcs.getD 0 default) 0 c2WitState).1.resets + 1 ∧
    (i2c_xfer_loop 0 0x50 c2WitOrcs 0 1 c2WitState).1.irqOn = false ∧
    (i2c_xfer_loop 0 0x50 c2WitOrcs 0 1 c2WitState).2.1 = 1 := by
  have h := claim_C2_theorem 0 0x50 c2WitOrcs 0 0 c2WitState (by decide) (by decide)
  exact ⟨h.2.1, h.2.2.1, h.2.2.2.1, h.2.2.2.2.1⟩

/-- C1 (amended): for every non-dropped transfer call, after the loop the
channel status is reset to NORMAL exactly when a per-message error was
recorded or the *first* message of the call carries the STOP flag (the
epilogue consults `msgs->flags`, the base pointer, not the last message);
otherwise the loop's final state — including a REPEAT_START /
WAIT_NEXT_XFER channel status left for a continuation call — is returned
unchanged. -/
theorem claim_C1_theorem (port addr : Nat) (orcs : List MsgOracle) (st : DState) :
    (((i2c_xfer_loop port addr orcs 0 st.msgs.length st).1.err ≠ 0 ∨
        ((i2c_xfer_loop port addr orcs 0 st.msgs.length st).1.msgs.getD 0
          default).stop = true) →
      (i2c_transfer_main port addr orcs st).2.1.i2ccs = ChStatus.normal) ∧
    ((i2c_xfer_loop port addr orcs 0 st.msgs.length st).1.err = 0 →
      ((i2c_xfer_loop port addr orcs 0 st.msgs.length st).1.msgs.getD 0
        default).stop = false →
      (i2c_transfer_main port addr orcs st).2.1 =
        (i2c_xfer_loop port addr orcs 0 st.msgs.length st).1) ∧
    (∀ msgs : List I2CMsg, ∀ b1 b2 : Bool, ∀ st0 : DState,
      (i2c_xfer_enter port msgs b1 b2 st0).2 = true →
      i2c_it8xxx2_transfer port addr msgs b1 b2 orcs st0 =
        i2c_transfer_main port addr orcs (i2c_xfer_enter port msgs b1 b2 st0).1) := by
  refine ⟨?_, ?_, ?_⟩
  · intro h
    simp only [i2c_transfer_main]
    rw [if_pos h]
  · intro h1 h2
    simp only [i2c_transfer_main]
    rw [if_neg ?_]
    rintro (hc | hc)
    · exact hc h1
    · rw [h2] at hc
      exact Bool.false_ne_true hc
  · intro msgs b1 b2 st0 he
    simp only [i2c_it8xxx2_transfer]
    rw [he]
    simp

/-- C1 counterexample, first call: a STOP-flagged write whose finish
interrupt never arrives: the wait times out after the stop condition was
issued, leaving the software stop-pending flag set. -/
def c1Msgs1 : List I2CMsg := [⟨false, true, false, 1, [0xAA]⟩]

def c1Orcs1 : List MsgOracle := [⟨⟨0, 0, 0⟩, [⟨0x80, 0, 0⟩]⟩]

/-- The driver state after the first (timed-out) call of the C1
counterexample: channel NORMAL but `data->stop` still 1. -/
def c1MidState : DState :=
  (i2c_it8xxx2_transfer 0 0x50 c1Msgs1 true true c1Orcs1 i2cInitState).2.1

/-- C1 counterexample, second call: first message STOP-flagged, second
message without STOP. -/
def c1Msgs2 : List I2CMsg :=
  [⟨false, true, false, 1, [0xBB]⟩, ⟨false, false, false, 1, [0xCC]⟩]

def c1Orcs2 : List MsgOracle :=
  [⟨⟨0, 0, 0⟩, [⟨0x02, 0, 0⟩]⟩, ⟨⟨0x80, 0, 0⟩, [⟨0x80, 0, 0⟩]⟩]

/-- C1 counterexample: after a prior timed-out call left the stop-pending
flag set, a two-message call ([write with STOP, write without STOP]) on a
legacy port completes with no error: the stale stop handling consumes the
first message's kick without ever clearing its START flag, so the second
message runs with the interrupt enabled and ends in REPEAT_START.  The
last message carries no STOP and no error was recorded, so the claim says
the REPEAT_START status is preserved — but the epilogue checks the *first*
message's STOP flag and resets the channel status to NORMAL. -/
theorem claim_C1_counterexample :
    (i2c_it8xxx2_transfer 0 0x50 c1Msgs1 true true c1Orcs1 i2cInitState).1 =
      -(ETIMEDOUT : Int) ∧
    c1MidState.stopf = true ∧
    c1MidState.i2ccs = ChStatus.normal ∧
    (i2c_it8xxx2_transfer 0 0x50 c1Msgs2 true true c1Orcs2 c1MidState).1 = 0 ∧
    (i2c_it8xxx2_transfer 0 0x50 c1Msgs2 true true c1Orcs2 c1MidState).2.1.err = 0 ∧
    (c1Msgs2.getD 1 default).stop = false ∧
    (i2c_xfer_loop 0 0x50 c1Orcs2 0 2
      (i2c_xfer_enter 0 c1Msgs2 true true c1MidState).1).1.i2ccs =
      ChStatus.repeatStart ∧
    (i2c_it8xxx2_transfer 0 0x50 c1Msgs2 true true c1Orcs2 c1MidState).2.1.i2ccs =
      ChStatus.normal := by decide

/-- C1 witness inputs: a single STOP-flagged legacy write that completes
cleanly (byte-done interrupt, then finish interrupt). -/
def c1WitOrcs : List MsgOracle := [⟨⟨0, 0, 0⟩, [⟨0x80, 0, 0⟩, ⟨0x02, 0, 0⟩]⟩]

def c1WitState : DState := (i2c_xfer_enter 0 c1Msgs1 true true i2cInitState).1

/-- Witness for the C1 theorem: a completed single-message STOP transfer
ends with channel status NORMAL, and the dropped-call glue applies. -/
theorem claim_C1_witness :
    (i2c_transfer_main 0 0x50 c1WitOrcs c1WitState).2.1.i2ccs = ChStatus.normal ∧
    i2c_it8xxx2_transfer 0 0x50 c1Msgs1 true true c1WitOrcs i2cInitState =
      i2c_transfer_main 0 0x50 c1WitOrcs
        (i2c_xfer_enter 0 c1Msgs1 true true i2cInitState).1 :=
  ⟨(claim_C1_theorem 0 0x50 c1WitOrcs c1WitState).1 (by decide),
   (claim_C1_theorem 0 0x50 c1WitOrcs c1WitState).2.2 c1Msgs1 true true i2cInitState
     (by decide)⟩

end Spec2Proof
